import Mathlib

/-!
Verification of the translation-and-routing engine of the
`claude-code-flexible-proxy` gateway (src/server.py, src/config.py).

The Python source is shallowly embedded: JSON values become the inductive
`Json`, Python dicts become association lists, Python exceptions become
`Except PyErr`, and the stateful streaming generator becomes a pure fold
over the incoming chunk list that returns the emitted SSE event list.
-/

set_option autoImplicit false

/-- A JSON-like Python value (dicts are association lists in insertion
order; numbers are modelled as integers, which is all the claims need). -/
inductive Json where
  | null
  | bool (b : Bool)
  | num (n : Int)
  | str (s : String)
  | arr (items : List Json)
  | obj (fields : List (String × Json))

/-- `d.get(k)` on a Python dict: the binding of the key, if any. -/
def jsonLookup : List (String × Json) → String → Option Json
  | [], _ => none
  | (k1, v) :: rest, k => if k1 = k then some v else jsonLookup rest k

/-- `d.get(k, default)` on a Python dict. -/
def jsonGetD (fields : List (String × Json)) (k : String) (dflt : Json) : Json :=
  (jsonLookup fields k).getD dflt

/-- `k in d` on a Python dict. -/
def jsonHasKey (fields : List (String × Json)) (k : String) : Bool :=
  (jsonLookup fields k).isSome

/-- Python truthiness of a JSON-like value (`if x:`). -/
def jsonTruthy : Json → Bool
  | .null => false
  | .bool b => b
  | .num n => n != 0
  | .str s => s ≠ ""
  | .arr items => !items.isEmpty
  | .obj fields => !fields.isEmpty

/-- Minimal JSON string escaping, standing in for `json.dumps` on strings.
The exact rendering is irrelevant to every claim. -/
def jsonEscape (s : String) : String :=
  s.toList.foldl (fun acc c =>
    if c = '"' then acc ++ "\\\""
    else if c = '\\' then acc ++ "\\\\"
    else acc.push c) ""

mutual

/-- `json.dumps` on the embedded value space (total: every `Json` is
serializable, matching the fact that values reaching the translator are
built from JSON input). -/
def jsonDumps : Json → String
  | .null => "null"
  | .bool true => "true"
  | .bool false => "false"
  | .num n => toString n
  | .str s => "\"" ++ jsonEscape s ++ "\""
  | .arr items => "[" ++ jsonDumpsList items ++ "]"
  | .obj fields => "\x7b" ++ jsonDumpsFields fields ++ "\x7d"

def jsonDumpsList : List Json → String
  | [] => ""
  | [j] => jsonDumps j
  | j :: rest => jsonDumps j ++ ", " ++ jsonDumpsList rest

def jsonDumpsFields : List (String × Json) → String
  | [] => ""
  | [(k, v)] => "\"" ++ jsonEscape k ++ "\": " ++ jsonDumps v
  | (k, v) :: rest =>
      "\"" ++ jsonEscape k ++ "\": " ++ jsonDumps v ++ ", " ++ jsonDumpsFields rest

end

/-- Python `str()` of a JSON-like value (only the shape matters here). -/
def pyStr (j : Json) : String := jsonDumps j

/-- `str.startswith` (character-level, so that proofs can evaluate it). -/
def pyStartsWith (s pre : String) : Bool := pre.toList.isPrefixOf s.toList

/-- Dropping the first `n` characters of a string (slicing `v[n:]`). -/
def pyDrop (s : String) (n : Nat) : String := String.mk (s.toList.drop n)

/-- `str.lower`. -/
def pyToLower (s : String) : String := String.mk (s.toList.map Char.toLower)

/-- Python whitespace for `str.strip`. -/
def pyWsChar (c : Char) : Bool :=
  c = ' ' ∨ c = '\t' ∨ c = '\n' ∨ c = '\r' ∨ c = '\x0b' ∨ c = '\x0c'

/-- `str.strip()`. -/
def pyStrip (s : String) : String :=
  String.mk (((s.toList.dropWhile pyWsChar).reverse.dropWhile pyWsChar).reverse)

/-! ## Schema Normalizer: `clean_gemini_schema` (src/server.py:393-414) -/

/-- The `schema.pop("additionalProperties", None); schema.pop("default", None)`
step: drop the two keywords Gemini rejects. -/
def stripGeminiKeys (fields : List (String × Json)) : List (String × Json) :=
  fields.filter (fun kv => kv.1 ≠ "additionalProperties" ∧ kv.1 ≠ "default")

/-- Membership of a `format` value in `allowed_formats = {"enum", "date-time"}`
(non-string values are never members, exactly as in Python). -/
def isAllowedFormat : Json → Bool
  | .str s => s = "enum" ∨ s = "date-time"
  | _ => false

/-- `schema.get("type") == "string"` on a dict. -/
def typeIsString (fields : List (String × Json)) : Bool :=
  match jsonLookup fields "type" with
  | some (.str s) => s = "string"
  | _ => false

/-- The `if schema.get("type") == "string" and "format" in schema:` block of
`clean_gemini_schema`: pop `format` when its value is outside the allowed set. -/
def stripBadFormat (fields : List (String × Json)) : List (String × Json) :=
  match jsonLookup fields "format" with
  | some v =>
      if typeIsString fields then
        if isAllowedFormat v then fields
        else fields.filter (fun kv => kv.1 ≠ "format")
      else fields
  | none => fields

theorem sizeOf_filter_le {α : Type} [SizeOf α] (p : α → Bool) :
    ∀ l : List α, sizeOf (l.filter p) ≤ sizeOf l := by
  intro l
  induction l with
  | nil => simp
  | cons a t ih =>
    rw [List.filter_cons]
    by_cases h : p a = true
    · rw [if_pos h]
      simp only [List.cons.sizeOf_spec]
      omega
    · rw [if_neg h]
      simp only [List.cons.sizeOf_spec]
      omega

theorem sizeOf_stripGeminiKeys_le (fields : List (String × Json)) :
    sizeOf (stripGeminiKeys fields) ≤ sizeOf fields := by
  unfold stripGeminiKeys
  exact sizeOf_filter_le _ fields

theorem sizeOf_stripBadFormat_le (fields : List (String × Json)) :
    sizeOf (stripBadFormat fields) ≤ sizeOf fields := by
  unfold stripBadFormat
  split
  · split
    · split
      · exact le_refl _
      · exact sizeOf_filter_le _ fields
    · exact le_refl _
  · exact le_refl _

mutual

/-- `clean_gemini_schema` (src/server.py:393-414): recursively removes
`additionalProperties` and `default`, and any disallowed string-type
`format`, then cleans every remaining value; lists are cleaned
element-wise; every other value is returned unchanged. -/
def cleanGeminiSchema : Json → Json
  | .obj fields => .obj (cleanGeminiFields (stripBadFormat (stripGeminiKeys fields)))
  | .arr items => .arr (cleanGeminiList items)
  | .null => .null
  | .bool b => .bool b
  | .num n => .num n
  | .str s => .str s
termination_by j => sizeOf j
decreasing_by
  all_goals simp
  all_goals
    have h1 := sizeOf_stripGeminiKeys_le fields
    have h2 := sizeOf_stripBadFormat_le (stripGeminiKeys fields)
    omega

def cleanGeminiList : List Json → List Json
  | [] => []
  | j :: rest => cleanGeminiSchema j :: cleanGeminiList rest
termination_by l => sizeOf l
decreasing_by
  all_goals simp
  all_goals omega

def cleanGeminiFields : List (String × Json) → List (String × Json)
  | [] => []
  | (k, v) :: rest => (k, cleanGeminiSchema v) :: cleanGeminiFields rest
termination_by l => sizeOf l
decreasing_by
  all_goals simp
  all_goals omega

end

/-- Holds when a dict's `format` key is acceptable to Gemini: absent, or
present while the dict is not string-typed, or in the allowed set. -/
def formatOk (fields : List (String × Json)) : Bool :=
  match jsonLookup fields "format" with
  | some v => if typeIsString fields then isAllowedFormat v else true
  | none => true

mutual

/-- The property C8 asserts of cleaner output: at every nesting depth no
`additionalProperties` or `default` key, and no disallowed `format` key in
a string-typed object. -/
def geminiCleanOk : Json → Bool
  | .obj fields =>
      (jsonLookup fields "additionalProperties").isNone &&
      (jsonLookup fields "default").isNone &&
      formatOk fields &&
      geminiCleanFieldsOk fields
  | .arr items => geminiCleanListOk items
  | _ => true

def geminiCleanListOk : List Json → Bool
  | [] => true
  | j :: rest => geminiCleanOk j && geminiCleanListOk rest

def geminiCleanFieldsOk : List (String × Json) → Bool
  | [] => true
  | (_, v) :: rest => geminiCleanOk v && geminiCleanFieldsOk rest

end

/-! ## Debug log store: `ConfigManager.add_debug_log` (src/config.py:254-267) -/

/-- One in-memory debug log record (`log_entry` in `add_debug_log`). -/
structure DebugLogEntry where
  timestamp : String
  type : String
  message : String
  details : List (String × Json)

/-- `max_debug_logs` set in `ConfigManager.__init__` (src/config.py:101). -/
def maxDebugLogs : Nat := 50

/-- `add_debug_log` (src/config.py:254-267): append the entry, then if the
bound is exceeded keep only the newest `max_debug_logs` entries
(`self.debug_logs[-self.max_debug_logs:]`). -/
def addDebugLog (logs : List DebugLogEntry) (entry : DebugLogEntry) :
    List DebugLogEntry :=
  let appended := logs ++ [entry]
  if appended.length > maxDebugLogs then
    appended.drop (appended.length - maxDebugLogs)
  else
    appended

/-! ## Lemmas about the Schema Normalizer -/

theorem jsonLookup_filter_false (f : List (String × Json)) (k : String)
    (p : String × Json → Bool) (hp : ∀ v, p (k, v) = false) :
    jsonLookup (f.filter p) k = none := by
  induction f with
  | nil => rfl
  | cons kv rest ih =>
    obtain ⟨k1, v1⟩ := kv
    rw [List.filter_cons]
    by_cases hk : k1 = k
    · subst hk
      rw [hp v1]
      exact ih
    · cases hp1 : p (k1, v1)
      · exact ih
      · simp only [if_pos rfl, jsonLookup, if_neg hk]
        exact ih

theorem jsonLookup_filter_of_none (f : List (String × Json)) (k : String)
    (p : String × Json → Bool) (h : jsonLookup f k = none) :
    jsonLookup (f.filter p) k = none := by
  induction f with
  | nil => rfl
  | cons kv rest ih =>
    obtain ⟨k1, v1⟩ := kv
    rw [List.filter_cons]
    by_cases hk : k1 = k
    · simp only [jsonLookup, if_pos hk] at h
      exact absurd h (by simp)
    · simp only [jsonLookup, if_neg hk] at h
      cases hp1 : p (k1, v1)
      · exact ih h
      · simp only [jsonLookup, if_neg hk]
        exact ih h

theorem jsonLookup_filter_ne (f : List (String × Json)) (k bad : String)
    (hk : k ≠ bad) :
    jsonLookup (f.filter (fun kv => kv.1 ≠ bad)) k = jsonLookup f k := by
  induction f with
  | nil => rfl
  | cons kv rest ih =>
    obtain ⟨k1, v1⟩ := kv
    rw [List.filter_cons]
    by_cases h1 : k1 = bad
    · have hne : k1 ≠ k := fun hcon => hk (hcon ▸ h1)
      rw [if_neg (by simp [h1])]
      simp only [jsonLookup, if_neg hne]
      exact ih
    · rw [if_pos (by simp [h1])]
      simp only [jsonLookup]
      by_cases h2 : k1 = k
      · rw [if_pos h2, if_pos h2]
      · rw [if_neg h2, if_neg h2]
        exact ih

theorem jsonLookup_filter_format_self (f : List (String × Json)) :
    jsonLookup (f.filter (fun kv => kv.1 ≠ "format")) "format" = none :=
  jsonLookup_filter_false f "format" _ (by intro v; simp)

theorem jsonLookup_stripGeminiKeys_ap (f : List (String × Json)) :
    jsonLookup (stripGeminiKeys f) "additionalProperties" = none := by
  unfold stripGeminiKeys
  exact jsonLookup_filter_false f _ _ (by intro v; simp)

theorem jsonLookup_stripGeminiKeys_default (f : List (String × Json)) :
    jsonLookup (stripGeminiKeys f) "default" = none := by
  unfold stripGeminiKeys
  exact jsonLookup_filter_false f _ _ (by intro v; simp)

theorem stripBadFormat_of_fmt_none (f : List (String × Json))
    (h : jsonLookup f "format" = none) : stripBadFormat f = f := by
  unfold stripBadFormat
  rw [h]

theorem stripBadFormat_of_not_string (f : List (String × Json)) (v : Json)
    (h : jsonLookup f "format" = some v) (hts : typeIsString f = false) :
    stripBadFormat f = f := by
  unfold stripBadFormat
  rw [h]
  simp [hts]

theorem stripBadFormat_of_allowed (f : List (String × Json)) (v : Json)
    (h : jsonLookup f "format" = some v) (hts : typeIsString f = true)
    (hal : isAllowedFormat v = true) : stripBadFormat f = f := by
  unfold stripBadFormat
  rw [h]
  simp [hts, hal]

theorem stripBadFormat_of_bad (f : List (String × Json)) (v : Json)
    (h : jsonLookup f "format" = some v) (hts : typeIsString f = true)
    (hal : isAllowedFormat v = false) :
    stripBadFormat f = f.filter (fun kv => kv.1 ≠ "format") := by
  unfold stripBadFormat
  rw [h]
  simp [hts, hal]

theorem jsonLookup_stripBadFormat_of_none (f : List (String × Json)) (k : String)
    (h : jsonLookup f k = none) : jsonLookup (stripBadFormat f) k = none := by
  cases hfmt : jsonLookup f "format" with
  | none => rw [stripBadFormat_of_fmt_none f hfmt]; exact h
  | some v =>
    cases hts : typeIsString f with
    | false => rw [stripBadFormat_of_not_string f v hfmt hts]; exact h
    | true =>
      cases hal : isAllowedFormat v with
      | false =>
        rw [stripBadFormat_of_bad f v hfmt hts hal]
        exact jsonLookup_filter_of_none f k _ h
      | true => rw [stripBadFormat_of_allowed f v hfmt hts hal]; exact h

theorem jsonLookup_cleanGeminiFields (f : List (String × Json)) (k : String) :
    jsonLookup (cleanGeminiFields f) k = (jsonLookup f k).map cleanGeminiSchema := by
  induction f with
  | nil => simp only [cleanGeminiFields]; rfl
  | cons kv rest ih =>
    obtain ⟨k1, v1⟩ := kv
    rw [cleanGeminiFields]
    by_cases hk : k1 = k
    · simp only [jsonLookup, if_pos hk]
      rfl
    · simp only [jsonLookup, if_neg hk]
      exact ih

/-- `cleanGeminiSchema` maps each `Json` constructor to the same constructor,
so a cleaned value is the string `s` iff the original was. -/
theorem cleanGeminiSchema_eq_str (j : Json) (s : String) :
    cleanGeminiSchema j = .str s ↔ j = .str s := by
  cases j <;> rw [cleanGeminiSchema] <;> simp

theorem isAllowedFormat_clean (j : Json) :
    isAllowedFormat (cleanGeminiSchema j) = isAllowedFormat j := by
  cases j <;> rw [cleanGeminiSchema] <;> rfl

theorem typeIsString_cleanGeminiFields (f : List (String × Json)) :
    typeIsString (cleanGeminiFields f) = typeIsString f := by
  unfold typeIsString
  rw [jsonLookup_cleanGeminiFields]
  cases h : jsonLookup f "type" with
  | none => rfl
  | some t => cases t <;> simp only [Option.map_some', cleanGeminiSchema]

theorem formatOk_stripBadFormat (f : List (String × Json)) :
    formatOk (stripBadFormat f) = true := by
  cases hfmt : jsonLookup f "format" with
  | none =>
    rw [stripBadFormat_of_fmt_none f hfmt]
    unfold formatOk
    rw [hfmt]
  | some v =>
    cases hts : typeIsString f with
    | false =>
      rw [stripBadFormat_of_not_string f v hfmt hts]
      unfold formatOk
      rw [hfmt]
      simp [hts]
    | true =>
      cases hal : isAllowedFormat v with
      | true =>
        rw [stripBadFormat_of_allowed f v hfmt hts hal]
        unfold formatOk
        rw [hfmt]
        simp [hts, hal]
      | false =>
        rw [stripBadFormat_of_bad f v hfmt hts hal]
        unfold formatOk
        rw [jsonLookup_filter_format_self f]

theorem formatOk_cleanGeminiFields (f : List (String × Json)) :
    formatOk (cleanGeminiFields f) = formatOk f := by
  unfold formatOk
  simp only [jsonLookup_cleanGeminiFields, typeIsString_cleanGeminiFields]
  cases h : jsonLookup f "format" with
  | none => rfl
  | some v =>
    simp only [Option.map_some']
    by_cases hts : typeIsString f
    · simp only [if_pos hts, isAllowedFormat_clean]
    · simp only [if_neg hts]

theorem jsonLookup_filter_of_pred (f : List (String × Json)) (k : String)
    (p : String × Json → Bool) (hp : ∀ v, p (k, v) = true) :
    jsonLookup (f.filter p) k = jsonLookup f k := by
  induction f with
  | nil => rfl
  | cons kv rest ih =>
    obtain ⟨k1, v1⟩ := kv
    rw [List.filter_cons]
    by_cases hk : k1 = k
    · subst hk
      rw [if_pos (hp v1)]
      simp [jsonLookup]
    · cases hp1 : p (k1, v1)
      · rw [if_neg (by simp)]
        simp only [jsonLookup, if_neg hk]
        exact ih
      · rw [if_pos rfl]
        simp only [jsonLookup, if_neg hk]
        exact ih

theorem jsonLookup_stripGeminiKeys_ne (f : List (String × Json)) (k : String)
    (h1 : k ≠ "additionalProperties") (h2 : k ≠ "default") :
    jsonLookup (stripGeminiKeys f) k = jsonLookup f k := by
  unfold stripGeminiKeys
  exact jsonLookup_filter_of_pred f k _ (by intro v; simp [h1, h2])

theorem jsonLookup_stripBadFormat_ne (f : List (String × Json)) (k : String)
    (hk : k ≠ "format") :
    jsonLookup (stripBadFormat f) k = jsonLookup f k := by
  cases hfmt : jsonLookup f "format" with
  | none => rw [stripBadFormat_of_fmt_none f hfmt]
  | some v =>
    cases hts : typeIsString f with
    | false => rw [stripBadFormat_of_not_string f v hfmt hts]
    | true =>
      cases hal : isAllowedFormat v with
      | false =>
        rw [stripBadFormat_of_bad f v hfmt hts hal]
        exact jsonLookup_filter_of_pred f k _ (by intro v1; simp [hk])
      | true => rw [stripBadFormat_of_allowed f v hfmt hts hal]

mutual

theorem geminiCleanOk_clean : ∀ j : Json, geminiCleanOk (cleanGeminiSchema j) = true
  | .obj fields => by
    rw [cleanGeminiSchema, geminiCleanOk]
    have hap : jsonLookup
        (cleanGeminiFields (stripBadFormat (stripGeminiKeys fields)))
        "additionalProperties" = none := by
      rw [jsonLookup_cleanGeminiFields,
        jsonLookup_stripBadFormat_of_none _ _ (jsonLookup_stripGeminiKeys_ap fields)]
      rfl
    have hdef : jsonLookup
        (cleanGeminiFields (stripBadFormat (stripGeminiKeys fields)))
        "default" = none := by
      rw [jsonLookup_cleanGeminiFields,
        jsonLookup_stripBadFormat_of_none _ _ (jsonLookup_stripGeminiKeys_default fields)]
      rfl
    have hfmt : formatOk
        (cleanGeminiFields (stripBadFormat (stripGeminiKeys fields))) = true := by
      rw [formatOk_cleanGeminiFields]
      exact formatOk_stripBadFormat _
    have hrec := geminiCleanFieldsOk_clean (stripBadFormat (stripGeminiKeys fields))
    simp [hap, hdef, hfmt, hrec]
  | .arr items => by
    rw [cleanGeminiSchema, geminiCleanOk]
    exact geminiCleanListOk_clean items
  | .null => by rw [cleanGeminiSchema]; rfl
  | .bool b => by rw [cleanGeminiSchema]; rfl
  | .num n => by rw [cleanGeminiSchema]; rfl
  | .str s => by rw [cleanGeminiSchema]; rfl
termination_by j => sizeOf j
decreasing_by
  all_goals simp
  all_goals
    have h1 := sizeOf_stripGeminiKeys_le fields
    have h2 := sizeOf_stripBadFormat_le (stripGeminiKeys fields)
    omega

theorem geminiCleanListOk_clean : ∀ l : List Json,
    geminiCleanListOk (cleanGeminiList l) = true
  | [] => by rw [cleanGeminiList]; rfl
  | j :: rest => by
    rw [cleanGeminiList, geminiCleanListOk, geminiCleanOk_clean j,
      geminiCleanListOk_clean rest]
    rfl
termination_by l => sizeOf l
decreasing_by
  all_goals simp
  all_goals omega

theorem geminiCleanFieldsOk_clean : ∀ l : List (String × Json),
    geminiCleanFieldsOk (cleanGeminiFields l) = true
  | [] => by rw [cleanGeminiFields]; rfl
  | (k, v) :: rest => by
    rw [cleanGeminiFields, geminiCleanFieldsOk, geminiCleanOk_clean v,
      geminiCleanFieldsOk_clean rest]
    rfl
termination_by l => sizeOf l
decreasing_by
  all_goals simp
  all_goals omega

end

/-- The field list of an object value (used to state key preservation). -/
def objFields : Json → List (String × Json)
  | .obj fields => fields
  | _ => []

/-- C8: for every JSON value given to the Gemini schema cleaner, the result
contains at every nesting depth no `additionalProperties` key, no `default`
key, and no `format` key inside a string-typed object unless its value is
`enum` or `date-time`; every other key of an object survives with its value
recursively cleaned. -/
theorem clean_gemini_schema_strips_and_preserves :
    (∀ j : Json, geminiCleanOk (cleanGeminiSchema j) = true) ∧
    (∀ (fields : List (String × Json)) (k : String),
      k ≠ "additionalProperties" → k ≠ "default" → k ≠ "format" →
      jsonLookup (objFields (cleanGeminiSchema (.obj fields))) k
        = (jsonLookup fields k).map cleanGeminiSchema) := by
  constructor
  · exact geminiCleanOk_clean
  · intro fields k h1 h2 h3
    rw [cleanGeminiSchema]
    rw [objFields]
    rw [jsonLookup_cleanGeminiFields, jsonLookup_stripBadFormat_ne _ _ h3,
      jsonLookup_stripGeminiKeys_ne _ _ h1 h2]

/-- Witness for C8 at a concrete schema: the key `x` survives cleaning with
its value intact while `format: hex` sits beside `type: string`. -/
theorem clean_gemini_schema_strips_and_preserves_witness :
    ("x" ≠ "additionalProperties" ∧ "x" ≠ "default" ∧ "x" ≠ "format") ∧
    jsonLookup (objFields (cleanGeminiSchema
        (.obj [("type", .str "string"), ("format", .str "hex"), ("x", .num 7)]))) "x"
      = (jsonLookup
          [("type", .str "string"), ("format", .str "hex"), ("x", .num 7)] "x").map
            cleanGeminiSchema :=
  ⟨⟨by decide, by decide, by decide⟩,
    clean_gemini_schema_strips_and_preserves.2 _ "x"
      (by decide) (by decide) (by decide)⟩

/-- C10: the in-memory debug log store is bounded: `add_debug_log` appends
the new entry and truncates to the newest `max_debug_logs = 50` entries, so
the resulting list never exceeds 50 entries, is a suffix of the appended
list (newest records retained), and always contains the new entry. -/
theorem addDebugLog_bounded_retains_newest
    (logs : List DebugLogEntry) (entry : DebugLogEntry) :
    (addDebugLog logs entry).length ≤ maxDebugLogs ∧
    List.IsSuffix (addDebugLog logs entry) (logs ++ [entry]) ∧
    entry ∈ addDebugLog logs entry := by
  unfold addDebugLog
  by_cases h : (logs ++ [entry]).length > maxDebugLogs
  · rw [if_pos h]
    refine ⟨?_, ?_, ?_⟩
    · rw [List.length_drop]
      omega
    · exact List.drop_suffix _ _
    · have hlen : (logs ++ [entry]).length = logs.length + 1 := by
        simp
      have hn : (logs ++ [entry]).length - maxDebugLogs ≤ logs.length := by
        unfold maxDebugLogs at h ⊢
        omega
      rw [List.drop_append_of_le_length hn]
      simp
  · rw [if_neg h]
    refine ⟨by omega, List.suffix_refl _, by simp⟩

/-! ## Configuration state (src/config.py) and the Model Router
(`MessagesRequest.validate_model_field`, src/server.py:468-537) -/

/-- A Python exception reaching a caller of the embedded code. -/
inductive PyErr where
  | keyError (k : String)
  | typeError (msg : String)
  | attributeError (msg : String)
  | validationError (msg : String)
  deriving Repr, DecidableEq

/-- `ProviderConfig` (src/config.py:15-38). -/
structure ProviderConfig where
  name : String
  baseUrl : String
  apiKeyEnv : String
  apiFormat : String := "openai"
  endpoint : String := "/chat/completions"
  apiKey : Option String := none
  models : List String := []

/-- `ProviderConfig.is_available` (src/config.py:35-38): `bool(self.api_key)`
— `None` and the empty string are both falsy. -/
def ProviderConfig.isAvailable (p : ProviderConfig) : Bool :=
  match p.apiKey with
  | some k => k ≠ ""
  | none => false

/-- The mutable `ConfigManager` state that routing reads
(src/config.py:77-119): providers plus `current_config`. -/
structure ConfigState where
  providers : List (String × ProviderConfig)
  proxyEnabled : Bool
  bigModel : Option String
  smallModel : Option String
  currentPreset : Option String
  debugLogs : List DebugLogEntry

/-- `ConfigManager.find_model_provider` (src/config.py:147-152). -/
def findModelProvider (cfg : ConfigState) (modelName : String) : Option String :=
  (cfg.providers.find? (fun pr => pr.2.models.contains modelName)).map (fun pr => pr.1)

/-- `ConfigManager.validate_model` (src/config.py:154-159): the model must be
listed by some provider and that provider must hold credentials. -/
def validateModel (cfg : ConfigState) (modelName : String) : Bool :=
  match findModelProvider cfg modelName with
  | none => false
  | some providerName =>
    match cfg.providers.find? (fun pr => pr.1 = providerName) with
    | some pr => pr.2.isAvailable
    | none => false

/-- A value stored in the dict returned by `ConfigManager.get_status`. -/
inductive StatusVal where
  | pyNone
  | bool (b : Bool)
  | str (s : String)
  | strList (l : List String)
  | nat (n : Nat)
  deriving Repr, DecidableEq

/-- An optional string as the Python value `None` or a `str`. -/
def optStatus : Option String → StatusVal
  | some s => .str s
  | none => .pyNone

/-- `get_available_providers` keys (src/config.py:139-141). -/
def availableProviders (cfg : ConfigState) : List String :=
  (cfg.providers.filter (fun pr => pr.2.isAvailable)).map (fun pr => pr.1)

/-- `ConfigManager.get_status` (src/config.py:225-237): the exact dict the
source builds.  Note: there is no `super_model` key. -/
def getStatus (cfg : ConfigState) : List (String × StatusVal) :=
  [("proxy_enabled", .bool cfg.proxyEnabled),
   ("big_model", optStatus cfg.bigModel),
   ("small_model", optStatus cfg.smallModel),
   ("current_preset", optStatus cfg.currentPreset),
   ("available_providers", .strList (availableProviders cfg)),
   ("total_models", .nat ((cfg.providers.map (fun pr => pr.2.models.length)).sum)),
   ("available_models",
    .nat (((cfg.providers.filter (fun pr => pr.2.isAvailable)).map
      (fun pr => pr.2.models.length)).sum))]

/-- Python `d[k]` on a dict: `KeyError` when the key is absent. -/
def dictGetItem (d : List (String × StatusVal)) (k : String) :
    Except PyErr StatusVal :=
  match d.find? (fun kv => kv.1 = k) with
  | some kv => .ok kv.2
  | none => .error (.keyError k)

/-- `OPENAI_MODELS` (src/server.py:231-273). -/
def OPENAI_MODELS : List String :=
  ["o3-mini", "o1", "o1-mini", "o1-pro", "o1-preview",
   "gpt-4o", "gpt-4o-2024-11-20", "gpt-4o-2024-08-06", "gpt-4o-2024-05-13",
   "gpt-4o-mini", "gpt-4o-mini-2024-07-18", "gpt-4o-audio-preview",
   "gpt-4o-realtime-preview", "chatgpt-4o-latest",
   "gpt-4-turbo", "gpt-4-turbo-2024-04-09", "gpt-4-turbo-preview",
   "gpt-4-0125-preview", "gpt-4-1106-preview",
   "gpt-4", "gpt-4-0613", "gpt-4-0314",
   "gpt-3.5-turbo", "gpt-3.5-turbo-0125", "gpt-3.5-turbo-1106",
   "gpt-3.5-turbo-16k",
   "gpt-4.5-preview", "gpt-4.1", "gpt-4.1-mini", "gpt-4o-mini-audio-preview"]

/-- `GEMINI_MODELS` (src/server.py:276-304). -/
def GEMINI_MODELS : List String :=
  ["gemini-2.0-flash-exp", "gemini-2.0-flash-thinking-exp", "gemini-2.0-flash",
   "gemini-1.5-pro", "gemini-1.5-pro-002", "gemini-1.5-pro-001",
   "gemini-1.5-pro-exp-0827", "gemini-1.5-flash", "gemini-1.5-flash-002",
   "gemini-1.5-flash-001", "gemini-1.5-flash-8b",
   "gemini-1.0-pro", "gemini-1.0-pro-001", "gemini-1.0-pro-latest",
   "gemini-exp-1114", "gemini-exp-1121",
   "gemini-2.5-flash", "gemini-2.5-pro"]

/-- `ANTHROPIC_MODELS` (src/server.py:307-324). -/
def ANTHROPIC_MODELS : List String :=
  ["claude-3-5-sonnet-20241022", "claude-3-5-sonnet-20240620",
   "claude-3-5-haiku-20241022",
   "claude-3-opus-20240229", "claude-3-sonnet-20240229", "claude-3-haiku-20240307",
   "claude-2.1", "claude-2.0", "claude-instant-1.2"]

/-- Python `needle in hay` on strings: contiguous substring test. -/
def strContains (hay needle : String) : Bool :=
  hay.toList.tails.any (fun t => needle.toList.isPrefixOf t)

/-- The prefix-stripping step of `validate_model_field`
(src/server.py:481-488): drop a leading `anthropic/`, `openai/` or
`gemini/`. -/
def stripProviderPfx (v : String) : String :=
  if pyStartsWith v "anthropic/" then pyDrop v 10
  else if pyStartsWith v "openai/" then pyDrop v 7
  else if pyStartsWith v "gemini/" then pyDrop v 7
  else v

/-- `MessagesRequest.validate_model_field` (src/server.py:468-537).
It reads `super_model`, `big_model` and `small_model` out of
`global_config.get_status()` with Python `[]` indexing, strips a provider
prefix, then maps `opus` to `super_model`, `haiku` to `small_model`,
`sonnet` to `big_model` (case-insensitive substring, in that order), falls
back to prefixing known bare model names, and otherwise returns the token
unchanged.  The result is the value assigned to the `model` field, or the
exception the validator raises. -/
def validateModelField (cfg : ConfigState) (v : String) : Except PyErr StatusVal :=
  match dictGetItem (getStatus cfg) "super_model" with
  | .error e => .error e
  | .ok superModel =>
    match dictGetItem (getStatus cfg) "big_model" with
    | .error e => .error e
    | .ok bigModel =>
      match dictGetItem (getStatus cfg) "small_model" with
      | .error e => .error e
      | .ok smallModel =>
        let cleanV := stripProviderPfx v
        if strContains (pyToLower cleanV) "opus" then .ok superModel
        else if strContains (pyToLower cleanV) "haiku" then .ok smallModel
        else if strContains (pyToLower cleanV) "sonnet" then .ok bigModel
        else if ANTHROPIC_MODELS.contains cleanV ∧ ¬pyStartsWith v "anthropic/" then
          .ok (.str ("anthropic/" ++ cleanV))
        else if GEMINI_MODELS.contains cleanV ∧ ¬pyStartsWith v "gemini/" then
          .ok (.str ("gemini/" ++ cleanV))
        else if OPENAI_MODELS.contains cleanV ∧ ¬pyStartsWith v "openai/" then
          .ok (.str ("openai/" ++ cleanV))
        else .ok (.str v)

/-- A configuration in which every alias is set to an available model, so
that routing per the claims ought to succeed. -/
def sampleConfig : ConfigState :=
  { providers :=
      [("openrouter",
        { name := "OpenRouter"
          baseUrl := "https://openrouter.ai/api/v1"
          apiKeyEnv := "OPENROUTER_API_KEY"
          apiKey := some "sk-test"
          models := ["gpt-4o", "modelX"] })]
    proxyEnabled := true
    bigModel := some "gpt-4o"
    smallModel := some "modelX"
    currentPreset := none
    debugLogs := [] }

/-- C1: the claim says routing fails with `UnresolvedModel` exactly when the
matched alias is unset or its provider lacks credentials.  In the code,
`validate_model_field` reads `get_status()["super_model"]`, but
`ConfigManager.get_status` never returns a `super_model` key, so every
inbound token — including ones whose alias is set and credentialed — makes
the validator raise `KeyError("super_model")` before any alias or
credential check runs; no `UnresolvedModel` path exists anywhere. -/
theorem validate_model_field_always_keyerror (cfg : ConfigState) (v : String) :
    validateModelField cfg v = .error (.keyError "super_model") := by
  unfold validateModelField dictGetItem getStatus
  simp [List.find?]

/-- C5: the claim says a token containing several keywords (for example both
`opus` and `sonnet`) is resolved by the fixed precedence, never rejected.
On the code, the same missing `super_model` key makes the validator raise
`KeyError` for that token instead of resolving it. -/
theorem validate_model_field_multikeyword_keyerror :
    validateModelField sampleConfig "openai/opus-sonnet-hybrid"
      = .error (.keyError "super_model") := by
  unfold validateModelField dictGetItem getStatus
  simp [List.find?]

/-! ## Transparent Forwarder: header assembly of `forward_to_anthropic`
(src/server.py:1553-1715, headers at 1602-1619).  Header names arrive
lowercased, as `dict(raw_request.headers)` produces them. -/

/-- `headers.pop(k, None)`: drop a header. -/
def removeHeader (hs : List (String × String)) (k : String) : List (String × String) :=
  hs.filter (fun kv => kv.1 ≠ k)

/-- `headers[k] = v` on a dict with unique keys: replace in place or append. -/
def setHeader : List (String × String) → String → String → List (String × String)
  | [], k, v => [(k, v)]
  | (k1, v1) :: rest, k, v =>
      if k1 = k then (k1, v) :: rest else (k1, v1) :: setHeader rest k v

/-- `headers.get(k)`. -/
def lookupHeader : List (String × String) → String → Option String
  | [], _ => none
  | (k1, v) :: rest, k => if k1 = k then some v else lookupHeader rest k

/-- `bool(ANTHROPIC_API_KEY)` (src/server.py:1561): unset and empty are falsy. -/
def envKeyTruthy : Option String → Bool
  | some k => k ≠ ""
  | none => false

/-- The header set `forward_to_anthropic` sends upstream
(src/server.py:1602-1619): start from the client headers minus `host`; when
`ANTHROPIC_API_KEY` is truthy, override `x-api-key` with it and pop any
`authorization`; finally default `anthropic-version` to `2023-06-01` when
absent. -/
def forwardHeaders (anthropicApiKey : Option String)
    (reqHeaders : List (String × String)) : List (String × String) :=
  let headers := removeHeader reqHeaders "host"
  let headers :=
    if envKeyTruthy anthropicApiKey then
      removeHeader (setHeader headers "x-api-key" (anthropicApiKey.getD ""))
        "authorization"
    else headers
  if (lookupHeader headers "anthropic-version").isNone then
    headers ++ [("anthropic-version", "2023-06-01")]
  else headers

theorem lookupHeader_removeHeader_self (hs : List (String × String)) (bad : String) :
    lookupHeader (removeHeader hs bad) bad = none := by
  induction hs with
  | nil => rfl
  | cons kv rest ih =>
    obtain ⟨k1, v1⟩ := kv
    unfold removeHeader at ih ⊢
    rw [List.filter_cons]
    by_cases h1 : k1 = bad
    · rw [if_neg (by simp [h1])]
      exact ih
    · rw [if_pos (by simp [h1])]
      simp only [lookupHeader, if_neg h1]
      exact ih

theorem lookupHeader_removeHeader_ne (hs : List (String × String)) (bad k : String)
    (hk : k ≠ bad) :
    lookupHeader (removeHeader hs bad) k = lookupHeader hs k := by
  induction hs with
  | nil => rfl
  | cons kv rest ih =>
    obtain ⟨k1, v1⟩ := kv
    unfold removeHeader at ih ⊢
    rw [List.filter_cons]
    by_cases h1 : k1 = bad
    · have hne : k1 ≠ k := fun hcon => hk (hcon ▸ h1)
      rw [if_neg (by simp [h1])]
      simp only [lookupHeader, if_neg hne]
      exact ih
    · rw [if_pos (by simp [h1])]
      by_cases h2 : k1 = k
      · simp only [lookupHeader, if_pos h2]
      · simp only [lookupHeader, if_neg h2]
        exact ih

theorem lookupHeader_setHeader_self (hs : List (String × String)) (k v : String) :
    lookupHeader (setHeader hs k v) k = some v := by
  induction hs with
  | nil => simp [setHeader, lookupHeader]
  | cons kv rest ih =>
    obtain ⟨k1, v1⟩ := kv
    rw [setHeader]
    by_cases h1 : k1 = k
    · rw [if_pos h1]
      simp only [lookupHeader, if_pos h1]
    · rw [if_neg h1]
      simp only [lookupHeader, if_neg h1]
      exact ih

theorem lookupHeader_setHeader_ne (hs : List (String × String)) (k v k2 : String)
    (hk : k2 ≠ k) :
    lookupHeader (setHeader hs k v) k2 = lookupHeader hs k2 := by
  induction hs with
  | nil =>
    have hne : k ≠ k2 := fun hcon => hk hcon.symm
    simp [setHeader, lookupHeader, hne]
  | cons kv rest ih =>
    obtain ⟨k1, v1⟩ := kv
    rw [setHeader]
    by_cases h1 : k1 = k
    · rw [if_pos h1]
      have hne : k1 ≠ k2 := fun hcon => hk (by rw [← hcon]; exact h1)
      simp only [lookupHeader, if_neg hne]
    · rw [if_neg h1]
      by_cases h2 : k1 = k2
      · simp only [lookupHeader, if_pos h2]
      · simp only [lookupHeader, if_neg h2]
        exact ih

theorem lookupHeader_append_of_none (hs t : List (String × String)) (k : String)
    (h : lookupHeader hs k = none) :
    lookupHeader (hs ++ t) k = lookupHeader t k := by
  induction hs with
  | nil => rfl
  | cons kv rest ih =>
    obtain ⟨k1, v1⟩ := kv
    simp only [lookupHeader] at h ⊢
    by_cases h1 : k1 = k
    · rw [if_pos h1] at h
      exact absurd h (by simp)
    · rw [if_neg h1] at h ⊢
      exact ih h

theorem lookupHeader_append_of_some (hs t : List (String × String)) (k w : String)
    (h : lookupHeader hs k = some w) :
    lookupHeader (hs ++ t) k = some w := by
  induction hs with
  | nil => exact absurd h (by simp [lookupHeader])
  | cons kv rest ih =>
    obtain ⟨k1, v1⟩ := kv
    simp only [lookupHeader] at h ⊢
    by_cases h1 : k1 = k
    · rw [if_pos h1] at h ⊢
      exact h
    · rw [if_neg h1] at h ⊢
      exact ih h

theorem lookupHeader_append_single_ne (hs : List (String × String))
    (k2 v2 k : String) (h : k ≠ k2) :
    lookupHeader (hs ++ [(k2, v2)]) k = lookupHeader hs k := by
  cases hw : lookupHeader hs k with
  | some w => exact lookupHeader_append_of_some hs _ k w hw
  | none =>
    rw [lookupHeader_append_of_none hs _ k hw]
    simp only [lookupHeader]
    rw [if_neg (fun hcon => h hcon.symm)]

/-- C9 counterexample: with no configured credential and a client that sent
only a `host` header, the claim predicts the upstream header set is exactly
the original headers minus `host` (empty); the code additionally injects
`anthropic-version: 2023-06-01`. -/
theorem forward_headers_counterexample :
    forwardHeaders none [("host", "localhost")]
      = [("anthropic-version", "2023-06-01")] ∧
    forwardHeaders none [("host", "localhost")]
      ≠ removeHeader [("host", "localhost")] "host" := by
  refine ⟨rfl, ?_⟩
  intro hcon
  have h1 : forwardHeaders none [("host", "localhost")]
      = [("anthropic-version", "2023-06-01")] := rfl
  have h2 : removeHeader [("host", "localhost")] "host"
      = ([] : List (String × String)) := rfl
  rw [h1, h2] at hcon
  exact List.noConfusion hcon

/-- C9 (amended): the upstream header set is the client's headers with
`host` removed and with `anthropic-version` defaulted to `2023-06-01` when
the client did not send one; when `ANTHROPIC_API_KEY` is truthy, `x-api-key`
is additionally overridden with it and any client `authorization` header is
removed; every other header passes through untouched, and in the
no-credential case all auth headers pass through untouched as well. -/
theorem forward_to_anthropic_headers_spec :
    (∀ (keyOpt : Option String) (hs : List (String × String)),
      lookupHeader (forwardHeaders keyOpt hs) "host" = none) ∧
    (∀ (keyOpt : Option String) (hs : List (String × String)) (k : String),
      envKeyTruthy keyOpt = false → k ≠ "host" → k ≠ "anthropic-version" →
      lookupHeader (forwardHeaders keyOpt hs) k = lookupHeader hs k) ∧
    (∀ (key : String) (hs : List (String × String)), key ≠ "" →
      lookupHeader (forwardHeaders (some key) hs) "x-api-key" = some key ∧
      lookupHeader (forwardHeaders (some key) hs) "authorization" = none) ∧
    (∀ (keyOpt : Option String) (hs : List (String × String)) (k : String),
      envKeyTruthy keyOpt = true → k ≠ "host" → k ≠ "anthropic-version" →
      k ≠ "x-api-key" → k ≠ "authorization" →
      lookupHeader (forwardHeaders keyOpt hs) k = lookupHeader hs k) ∧
    (∀ (keyOpt : Option String) (hs : List (String × String)),
      lookupHeader (forwardHeaders keyOpt hs) "anthropic-version"
        = some ((lookupHeader hs "anthropic-version").getD "2023-06-01")) := by
  have hbase : ∀ (keyOpt : Option String) (hs : List (String × String)) (k : String),
      k ≠ "host" → k ≠ "x-api-key" → k ≠ "authorization" →
      lookupHeader
        (if envKeyTruthy keyOpt then
          removeHeader (setHeader (removeHeader hs "host") "x-api-key"
            (keyOpt.getD "")) "authorization"
        else removeHeader hs "host") k = lookupHeader hs k := by
    intro keyOpt hs k hh hx ha
    by_cases he : envKeyTruthy keyOpt
    · rw [if_pos he, lookupHeader_removeHeader_ne _ _ _ ha,
        lookupHeader_setHeader_ne _ _ _ _ hx,
        lookupHeader_removeHeader_ne _ _ _ hh]
    · rw [if_neg he, lookupHeader_removeHeader_ne _ _ _ hh]
  have hhost : ∀ (keyOpt : Option String) (hs : List (String × String)),
      lookupHeader
        (if envKeyTruthy keyOpt then
          removeHeader (setHeader (removeHeader hs "host") "x-api-key"
            (keyOpt.getD "")) "authorization"
        else removeHeader hs "host") "host" = none := by
    intro keyOpt hs
    by_cases he : envKeyTruthy keyOpt
    · rw [if_pos he, lookupHeader_removeHeader_ne _ _ _ (by decide),
        lookupHeader_setHeader_ne _ _ _ _ (by decide),
        lookupHeader_removeHeader_self]
    · rw [if_neg he, lookupHeader_removeHeader_self]
  have hfinal : ∀ (mid : List (String × String)) (k : String),
      k ≠ "anthropic-version" →
      lookupHeader
        (if (lookupHeader mid "anthropic-version").isNone then
          mid ++ [("anthropic-version", "2023-06-01")]
        else mid) k = lookupHeader mid k := by
    intro mid k hk
    by_cases hv : (lookupHeader mid "anthropic-version").isNone
    · rw [if_pos hv, lookupHeader_append_single_ne _ _ _ _ hk]
    · rw [if_neg hv]
  refine ⟨?_, ?_, ?_, ?_, ?_⟩
  · intro keyOpt hs
    unfold forwardHeaders
    rw [hfinal _ _ (by decide), hhost keyOpt hs]
  · intro keyOpt hs k he hh hv
    unfold forwardHeaders
    rw [hfinal _ _ hv]
    rw [if_neg (by simp [he])]
    exact lookupHeader_removeHeader_ne _ _ _ hh
  · intro key hs hkey
    have he : envKeyTruthy (some key) = true := by
      simp [envKeyTruthy, hkey]
    constructor
    · unfold forwardHeaders
      rw [hfinal _ _ (by decide), if_pos he,
        lookupHeader_removeHeader_ne _ _ _ (by decide),
        lookupHeader_setHeader_self]
      rfl
    · unfold forwardHeaders
      rw [hfinal _ _ (by decide), if_pos he, lookupHeader_removeHeader_self]
  · intro keyOpt hs k he hh hv hx ha
    unfold forwardHeaders
    rw [hfinal _ _ hv]
    exact hbase keyOpt hs k hh hx ha
  · intro keyOpt hs
    unfold forwardHeaders
    have hmid : lookupHeader
        (if envKeyTruthy keyOpt then
          removeHeader (setHeader (removeHeader hs "host") "x-api-key"
            (keyOpt.getD "")) "authorization"
        else removeHeader hs "host") "anthropic-version"
        = lookupHeader hs "anthropic-version" :=
      hbase keyOpt hs "anthropic-version" (by decide) (by decide) (by decide)
    by_cases hv : (lookupHeader
        (if envKeyTruthy keyOpt then
          removeHeader (setHeader (removeHeader hs "host") "x-api-key"
            (keyOpt.getD "")) "authorization"
        else removeHeader hs "host") "anthropic-version").isNone
    · rw [if_pos hv]
      have hnone : lookupHeader hs "anthropic-version" = none := by
        rw [← hmid]
        exact Option.isNone_iff_eq_none.mp hv
      rw [lookupHeader_append_of_none _ _ _ (by rw [hmid]; exact hnone)]
      rw [hnone]
      rfl
    · rw [if_neg hv]
      rw [hmid] at hv ⊢
      cases hw : lookupHeader hs "anthropic-version" with
      | none =>
        rw [hw] at hv
        exact absurd rfl hv
      | some w => rfl

/-- Witness for C9 at concrete headers: with no credential configured, a
client header other than `host`/`anthropic-version` passes through. -/
theorem forward_to_anthropic_headers_spec_witness :
    (envKeyTruthy none = false ∧ "x-test" ≠ "host"
      ∧ ("x-test" : String) ≠ "anthropic-version") ∧
    lookupHeader (forwardHeaders none [("host", "h"), ("x-test", "1")]) "x-test"
      = lookupHeader [("host", "h"), ("x-test", "1")] "x-test" :=
  ⟨⟨rfl, by decide, by decide⟩,
    forward_to_anthropic_headers_spec.2.1 none [("host", "h"), ("x-test", "1")]
      "x-test" rfl (by decide) (by decide)⟩

/-! ## Request data model (pydantic classes, src/server.py:416-466) -/

/-- `SystemContent` (src/server.py:436-438): a text block of the system
prompt. -/
structure SystemContent where
  text : String

/-- The four content block classes (src/server.py:417-434).  `thinking`
blocks are not part of the pydantic union, so they never reach the
translator. -/
inductive ContentBlock where
  | text (text : String)
  | image (source : List (String × Json))
  | toolUse (id : String) (name : String) (input : List (String × Json))
  | toolResult (toolUseId : String) (content : Json)

/-- A message's content: plain string or block list (src/server.py:440-442). -/
inductive MsgContent where
  | str (s : String)
  | blocks (bs : List ContentBlock)

/-- `Literal["user", "assistant"]`. -/
inductive Role where
  | user
  | assistant
  deriving Repr, DecidableEq

def Role.toStr : Role → String
  | .user => "user"
  | .assistant => "assistant"

structure AnthMessage where
  role : Role
  content : MsgContent

/-- `Tool` (src/server.py:444-447); pydantic guarantees `input_schema` is a
dict. -/
structure Tool where
  name : String
  description : Option String
  inputSchema : List (String × Json)

structure ThinkingConfig where
  enabled : Bool
  deriving Repr, DecidableEq

/-- `MessagesRequest` (src/server.py:452-466) after validation.  Generation
parameters keep their Python types; `stream` defaults to false. -/
structure MessagesRequest where
  model : String
  maxTokens : Nat
  messages : List AnthMessage
  system : Option (Sum String (List SystemContent)) := none
  stopSequences : Option (List String) := none
  stream : Bool := false
  temperature : Option Float := some 1.0
  topP : Option Float := none
  topK : Option Int := none
  tools : Option (List Tool) := none
  toolChoice : Option (List (String × Json)) := none
  thinking : Option ThinkingConfig := none

/-! ## Request Translator: `convert_anthropic_to_litellm`
(src/server.py:792-994) -/

/-- One structured tool call of a backend-format assistant message. -/
structure LToolCall where
  id : String
  type : String
  name : String
  arguments : String

/-- Content of a backend-format message: a plain string, a processed block
list, or (for `tool` messages only) the raw non-string value
`parse_tool_result_content` can return for a dict with a non-string `text`
field. -/
inductive LContent where
  | str (s : String)
  | blocks (bs : List Json)
  | raw (j : Json)

/-- One message of the LiteLLM (OpenAI-format) request.  `content = none`
models the deleted `content` key of an assistant tool-call message whose
joined text was empty. -/
structure LMsg where
  role : String
  content : Option LContent
  toolCallId : Option String := none
  toolCalls : Option (List LToolCall) := none

/-- One step of the list case of `parse_tool_result_content`
(src/server.py:756-776): accumulate one item into the result string.
Appending a non-string `text` value raises `TypeError` in Python. -/
def parseToolResultItem (acc : String) (item : Json) : Except PyErr String :=
  match item with
  | .obj fields =>
      match jsonLookup fields "type" with
      | some (.str "text") =>
          match jsonGetD fields "text" (.str "") with
          | .str t => .ok (acc ++ t ++ "\n")
          | _ => .error (.typeError "can only concatenate str")
      | _ =>
          if jsonHasKey fields "text" then
            match jsonGetD fields "text" (.str "") with
            | .str t => .ok (acc ++ t ++ "\n")
            | _ => .error (.typeError "can only concatenate str")
          else .ok (acc ++ jsonDumps (.obj fields) ++ "\n")
  | .str s => .ok (acc ++ s ++ "\n")
  | other => .ok (acc ++ pyStr other ++ "\n")

def parseToolResultList (acc : String) : List Json → Except PyErr String
  | [] => .ok acc
  | item :: rest =>
      match parseToolResultItem acc item with
      | .error e => .error e
      | .ok acc2 => parseToolResultList acc2 rest

/-- `parse_tool_result_content` (src/server.py:748-790): normalize a tool
result's content to a single text blob; a dict with `type == "text"`
returns its `text` value verbatim (whatever its type). -/
def parseToolResultContent : Json → Except PyErr Json
  | .null => .ok (.str "No content provided")
  | .str s => .ok (.str s)
  | .arr items =>
      match parseToolResultList "" items with
      | .error e => .error e
      | .ok s => .ok (.str (pyStrip s))
  | .obj fields =>
      match jsonLookup fields "type" with
      | some (.str "text") => .ok (jsonGetD fields "text" (.str ""))
      | _ => .ok (.str (jsonDumps (.obj fields)))
  | j => .ok (.str (pyStr j))

/-- The system prompt conversion of `convert_anthropic_to_litellm`
(src/server.py:800-815): a falsy system value is skipped, a string becomes
one `system` message, a block list is concatenated with blank lines. -/
def systemMessages : Option (Sum String (List SystemContent)) → List LMsg
  | none => []
  | some (.inl s) =>
      if s = "" then []
      else [{ role := "system", content := some (.str s) }]
  | some (.inr blocks) =>
      if blocks.isEmpty then []
      else
        let systemText := blocks.foldl (fun acc b => acc ++ b.text ++ "\n\n") ""
        if systemText ≠ "" then
          [{ role := "system", content := some (.str (pyStrip systemText)) }]
        else []

def isToolResultBlock : ContentBlock → Bool
  | .toolResult _ _ => true
  | _ => false

def isToolUseBlock : ContentBlock → Bool
  | .toolUse _ _ _ => true
  | _ => false

/-- The `role == "user" and is_tool_result_message` branch
(src/server.py:828-842): each `tool_result` block becomes one `tool`
message; non-empty text blocks become separate user messages; everything
else is dropped. -/
def userToolResultMsgs : List ContentBlock → Except PyErr (List LMsg)
  | [] => .ok []
  | b :: rest =>
      match b with
      | .toolResult toolUseId content =>
          match parseToolResultContent content with
          | .error e => .error e
          | .ok v =>
              let contentVal : LContent :=
                match v with
                | .str s => .str s
                | j => .raw j
              match userToolResultMsgs rest with
              | .error e => .error e
              | .ok ms =>
                  .ok ({ role := "tool", content := some contentVal,
                         toolCallId := some toolUseId } :: ms)
      | .text t =>
          match userToolResultMsgs rest with
          | .error e => .error e
          | .ok ms =>
              if pyStrip t ≠ "" then
                .ok ({ role := "user", content := some (.str t) } :: ms)
              else .ok ms
      | _ =>
          userToolResultMsgs rest

/-- The `role == "assistant" and is_tool_use_message` branch
(src/server.py:845-876): collect the structured tool calls and join the
text parts; an empty joined text drops the `content` key. -/
def assistantToolUseMsg (content : List ContentBlock) : LMsg :=
  let toolCalls := content.foldr
    (fun b acc =>
      match b with
      | .toolUse id name input =>
          { id := id, type := "function", name := name,
            arguments := jsonDumps (.obj input) } :: acc
      | _ => acc) []
  let textParts := content.foldr
    (fun b acc =>
      match b with
      | .text t => t :: acc
      | _ => acc) []
  let joined := pyStrip (String.intercalate " " textParts)
  if joined = "" then
    { role := "assistant", content := none, toolCalls := some toolCalls }
  else
    { role := "assistant", content := some (.str joined),
      toolCalls := some toolCalls }

/-- The fallback branch for other block content (src/server.py:879-893):
text and image blocks are carried over, all other block types dropped. -/
def processedBlocks (content : List ContentBlock) : List Json :=
  content.foldr
    (fun b acc =>
      match b with
      | .text t => .obj [("type", .str "text"), ("text", .str t)] :: acc
      | .image src => .obj [("type", .str "image"), ("source", .obj src)] :: acc
      | _ => acc) []

/-- The per-message classification of `convert_anthropic_to_litellm`
(src/server.py:817-897). -/
def convertMessage (m : AnthMessage) : Except PyErr (List LMsg) :=
  match m.content with
  | .str s => .ok [{ role := m.role.toStr, content := some (.str s) }]
  | .blocks content =>
      let isToolResultMessage := content.any isToolResultBlock
      let isToolUseMessage := content.any isToolUseBlock
      if m.role = .user ∧ isToolResultMessage then
        userToolResultMsgs content
      else if m.role = .assistant ∧ isToolUseMessage then
        .ok [assistantToolUseMsg content]
      else
        .ok [{ role := m.role.toStr,
               content := some (.blocks (processedBlocks content)) }]

def convertMessages : List AnthMessage → Except PyErr (List LMsg)
  | [] => .ok []
  | m :: rest =>
      match convertMessage m with
      | .error e => .error e
      | .ok ms =>
          match convertMessages rest with
          | .error e => .error e
          | .ok ms2 => .ok (ms ++ ms2)

/-- One tool in the backend's function-call schema
(src/server.py:959-967). -/
structure OpenAITool where
  name : String
  description : Option String
  parameters : List (String × Json)

/-- Schema validation before conversion (src/server.py:948-953): a schema
missing `type` or `properties` is replaced with the canonical empty-object
schema. -/
def normalizeSchema (inputSchema : List (String × Json)) : List (String × Json) :=
  if jsonHasKey inputSchema "type" ∧ jsonHasKey inputSchema "properties" then
    inputSchema
  else [("type", .str "object"), ("properties", .obj [])]

/-- `clean_gemini_schema` applied to a top-level schema dict. -/
def cleanGeminiObjFields (fields : List (String × Json)) : List (String × Json) :=
  objFields (cleanGeminiSchema (.obj fields))

/-- Tool conversion (src/server.py:928-970); `if anthropic_request.tools:`
makes an empty tool list behave like an absent one. -/
def convertTools (modelName : String) : Option (List Tool) → Option (List OpenAITool)
  | none => none
  | some tools =>
      if tools.isEmpty then none
      else some (tools.map (fun t =>
        let inputSchema := normalizeSchema t.inputSchema
        let inputSchema :=
          if pyStartsWith modelName "gemini/" then cleanGeminiObjFields inputSchema
          else inputSchema
        { name := t.name, description := t.description,
          parameters := inputSchema }))

/-- The backend `tool_choice` directive (src/server.py:972-992). -/
inductive LToolChoice where
  | auto
  | any
  | tool (name : Json)

def convertToolChoice : Option (List (String × Json)) → Option LToolChoice
  | none => none
  | some tc =>
      if tc.isEmpty then none
      else
        match jsonLookup tc "type" with
        | some (.str "auto") => some .auto
        | some (.str "any") => some .any
        | some (.str "tool") =>
            match jsonLookup tc "name" with
            | some nm => some (.tool nm)
            | none => some .auto
        | _ => some .auto

/-- The LiteLLM request dict built by `convert_anthropic_to_litellm`
(src/server.py:905-994). -/
structure LiteLLMRequest where
  model : String
  messages : List LMsg
  maxTokens : Nat
  temperature : Option Float
  stream : Bool
  thinking : Option ThinkingConfig
  stop : Option (List String)
  topP : Option Float
  topK : Option Int
  tools : Option (List OpenAITool)
  toolChoice : Option LToolChoice

/-- `convert_anthropic_to_litellm` (src/server.py:792-994): system messages
first, then the converted conversation; `max_tokens` is capped at 16384 for
`openai/`- and `gemini/`-prefixed models (src/server.py:899-903);
`thinking` is only forwarded to `anthropic/` models; falsy
`stop_sequences`/`top_p`/`top_k` are omitted. -/
def convertAnthropicToLitellm (r : MessagesRequest) :
    Except PyErr LiteLLMRequest :=
  match convertMessages r.messages with
  | .error e => .error e
  | .ok converted =>
      let maxTokens :=
        if pyStartsWith r.model "openai/" ∨ pyStartsWith r.model "gemini/" then
          min r.maxTokens 16384
        else r.maxTokens
      .ok
        { model := r.model
          messages := systemMessages r.system ++ converted
          maxTokens := maxTokens
          temperature := r.temperature
          stream := r.stream
          thinking :=
            if r.thinking.isSome ∧ pyStartsWith r.model "anthropic/" then r.thinking
            else none
          stop :=
            match r.stopSequences with
            | some l => if l.isEmpty then none else some l
            | none => none
          topP :=
            match r.topP with
            | some p => if p == 0.0 then none else some p
            | none => none
          topK :=
            match r.topK with
            | some k => if k == 0 then none else some k
            | none => none
          tools := convertTools r.model r.tools
          toolChoice := convertToolChoice r.toolChoice }

/-! ## A stand-in for stdlib `json.loads`: a small fuel-bounded
recursive-descent parser over the embedded value space.  No claim depends
on its exact behavior — it only determines the parsed `input` of tool_use
blocks and whether an argument string gets wrapped as `{"raw": ...}`
(floats and exotic escapes simply fail to parse, which is safe for every
claim). -/

def jsonWs (c : Char) : Bool := c = ' ' ∨ c = '\n' ∨ c = '\t' ∨ c = '\r'

def skipJsonWs : List Char → List Char
  | [] => []
  | c :: rest => if jsonWs c then skipJsonWs rest else c :: rest

def parseJsonDigits : Nat → Nat → List Char → Bool → Option (Nat × List Char)
  | 0, _, _, _ => none
  | _, acc, [], seen => if seen then some (acc, []) else none
  | fuel + 1, acc, c :: rest, seen =>
      if c.isDigit then
        parseJsonDigits fuel (acc * 10 + (c.toNat - 48)) rest true
      else if seen then some (acc, c :: rest)
      else none

def parseJsonStrBody : Nat → String → List Char → Option (String × List Char)
  | 0, _, _ => none
  | fuel + 1, acc, cs =>
      match cs with
      | [] => none
      | '"' :: rest => some (acc, rest)
      | '\\' :: e :: rest =>
          let ec := if e = 'n' then '\n' else if e = 't' then '\t'
            else if e = 'r' then '\r' else e
          parseJsonStrBody fuel (acc.push ec) rest
      | c :: rest => parseJsonStrBody fuel (acc.push c) rest

mutual

def parseJsonVal : Nat → List Char → Option (Json × List Char)
  | 0, _ => none
  | fuel + 1, cs =>
      match skipJsonWs cs with
      | 'n' :: 'u' :: 'l' :: 'l' :: rest => some (.null, rest)
      | 't' :: 'r' :: 'u' :: 'e' :: rest => some (.bool true, rest)
      | 'f' :: 'a' :: 'l' :: 's' :: 'e' :: rest => some (.bool false, rest)
      | '"' :: rest =>
          match parseJsonStrBody fuel "" rest with
          | some (s, rest2) => some (.str s, rest2)
          | none => none
      | '[' :: rest =>
          (match skipJsonWs rest with
           | ']' :: rest2 => some (.arr [], rest2)
           | _ => parseJsonArrItems fuel [] rest)
      | '{' :: rest =>
          (match skipJsonWs rest with
           | '}' :: rest2 => some (.obj [], rest2)
           | _ => parseJsonObjItems fuel [] rest)
      | '-' :: rest =>
          (match parseJsonDigits fuel 0 rest false with
           | some (n, rest2) => some (.num (-(n : Int)), rest2)
           | none => none)
      | c :: rest =>
          if c.isDigit then
            match parseJsonDigits fuel 0 (c :: rest) false with
            | some (n, rest2) => some (.num (n : Int), rest2)
            | none => none
          else none
      | [] => none

def parseJsonArrItems : Nat → List Json → List Char → Option (Json × List Char)
  | 0, _, _ => none
  | fuel + 1, acc, cs =>
      match parseJsonVal fuel cs with
      | none => none
      | some (v, rest) =>
          match skipJsonWs rest with
          | ',' :: rest2 => parseJsonArrItems fuel (acc ++ [v]) rest2
          | ']' :: rest2 => some (.arr (acc ++ [v]), rest2)
          | _ => none

def parseJsonObjItems : Nat → List (String × Json) → List Char →
    Option (Json × List Char)
  | 0, _, _ => none
  | fuel + 1, acc, cs =>
      match skipJsonWs cs with
      | '"' :: rest =>
          (match parseJsonStrBody fuel "" rest with
           | none => none
           | some (k, rest2) =>
             match skipJsonWs rest2 with
             | ':' :: rest3 =>
                 (match parseJsonVal fuel rest3 with
                  | none => none
                  | some (v, rest4) =>
                    match skipJsonWs rest4 with
                    | ',' :: rest5 => parseJsonObjItems fuel (acc ++ [(k, v)]) rest5
                    | '}' :: rest5 => some (.obj (acc ++ [(k, v)]), rest5)
                    | _ => none)
             | _ => none)
      | _ => none

end

/-- `json.loads` on a string: parse fully or fail. -/
def jsonLoads (s : String) : Option Json :=
  let cs := s.toList
  match parseJsonVal (cs.length * 4 + 16) cs with
  | some (v, rest) => if (skipJsonWs rest).isEmpty then some v else none
  | none => none

/-! ## Response Translator: `convert_litellm_to_anthropic`
(src/server.py:996-1148) -/

/-- Placeholder for `uuid.uuid4()` hex output (fresh ids are opaque to every
claim). -/
def uuidHex : String := "ffffffffffffffffffffffffffffffff"

/-- `function` attribute of a LiteLLM tool-call object. -/
structure LFunctionObj where
  name : Option String
  arguments : Option String

structure LToolCallObj where
  id : Option String
  function : Option LFunctionObj

structure LMessageObj where
  content : Option String
  toolCalls : Option (List LToolCallObj)

structure LChoiceObj where
  message : Option LMessageObj
  finishReason : Option String

structure LUsageObj where
  promptTokens : Option Int
  completionTokens : Option Int

/-- A backend response value reaching `convert_litellm_to_anthropic`: a
LiteLLM `ModelResponse`-shaped object (has `choices` and `usage`
attributes), or any other value, carried as JSON-like data.  A non-dict
`raw` value models an object whose `.dict()`/`.model_dump()`/`__dict__`
chain fails, which the source answers with the manual `getattr` fallback
dict. -/
inductive LiteLLMResponse where
  | modelResp (choices : List LChoiceObj) (usage : LUsageObj) (id : Option String)
  | raw (j : Json)

/-- An Anthropic response content block (`ContentBlockText` or
`ContentBlockToolUse`); the pydantic types force `id`/`name` to be strings
and `input` to be a dict. -/
inductive RespBlock where
  | text (text : String)
  | toolUse (id : String) (name : String) (input : List (String × Json))

/-- `Usage` (src/server.py:671-675). -/
structure UsageM where
  inputTokens : Int
  outputTokens : Int
  cacheCreationInputTokens : Int := 0
  cacheReadInputTokens : Int := 0

/-- `MessagesResponse` (src/server.py:677-685). -/
structure MessagesResponseM where
  id : String
  model : String
  role : String := "assistant"
  content : List RespBlock
  type : String := "message"
  stopReason : Option String
  stopSequence : Option String := none
  usage : UsageM

/-- Python `len(x)` (`TypeError` on unsized values). -/
def pyLen : Json → Except PyErr Nat
  | .str s => .ok s.length
  | .arr l => .ok l.length
  | .obj f => .ok f.length
  | _ => .error (.typeError "object has no len")

/-- Python `x[0]`: list indexing, 1-character string, `KeyError`/`TypeError`
otherwise. -/
def indexZero : Json → Except PyErr Json
  | .arr (j :: _) => .ok j
  | .arr [] => .error (.typeError "index out of range")
  | .str s =>
      (match s.toList with
       | c :: _ => .ok (.str (String.singleton c))
       | [] => .error (.typeError "index out of range"))
  | .obj _ => .error (.keyError "0")
  | _ => .error (.typeError "not subscriptable")

/-- Python `x.get(k, default)`: `AttributeError` when `x` is not a dict. -/
def dictGet (j : Json) (k : String) (dflt : Json) : Except PyErr Json :=
  match j with
  | .obj f => .ok (jsonGetD f k dflt)
  | _ => .error (.attributeError "object has no attribute get")

/-- The `.dict()` / `.model_dump()` / `__dict__` / manual-`getattr` fallback
chain (src/server.py:1024-1037) collapsed: a dict is used as-is, anything
else yields the manual fallback dict. -/
def respDictOf : Json → List (String × Json)
  | .obj d => d
  | _ => [("id", .str ("msg_" ++ uuidHex)),
          ("choices", .arr [.obj []]),
          ("usage", .obj [])]

/-- `message`/`finish_reason` extraction of the dict path
(src/server.py:1040-1044): `choices[0].get(...) if choices and
len(choices) > 0 else` the defaults. -/
def extractMessagePart (d : List (String × Json)) :
    Except PyErr (Json × Json) := do
  let choices := jsonGetD d "choices" (.arr [.obj []])
  let truthyLen ←
    if jsonTruthy choices then do
      let n ← pyLen choices
      pure (decide (n > 0))
    else pure false
  if truthyLen then do
    let c0 ← indexZero choices
    let message ← dictGet c0 "message" (.obj [])
    let finish ← dictGet c0 "finish_reason" (.str "stop")
    pure (message, finish)
  else
    pure (.obj [], .str "stop")

/-- Per-tool-call field extraction (src/server.py:1066-1076): dicts via
`.get`, other values via `getattr` with defaults. -/
def extractToolCallParts (tc : Json) : Except PyErr (Json × Json × Json) :=
  match tc with
  | .obj fields => do
      let function := jsonGetD fields "function" (.obj [])
      let toolId := jsonGetD fields "id" (.str ("tool_" ++ uuidHex))
      let name ← dictGet function "name" (.str "")
      let arguments ← dictGet function "arguments" (.str "\x7b\x7d")
      pure (toolId, name, arguments)
  | _ => pure (.str ("tool_" ++ uuidHex), .str "", .str "\x7b\x7d")

/-- Argument normalization (src/server.py:1078-1084): parse string
arguments, wrapping unparsable ones as `{"raw": ...}`; non-strings pass
through. -/
def parseArguments (arguments : Json) : Json :=
  match arguments with
  | .str s =>
      (match jsonLoads s with
       | some v => v
       | none => .obj [("raw", .str s)])
  | other => other

/-- Building the text block (src/server.py:1051-1053) plus the pydantic
`ContentBlockText` validation: a non-string non-empty `content` value
raises at `MessagesResponse` construction. -/
def mkTextBlock : Json → Except PyErr (Option RespBlock)
  | .null => pure none
  | .str "" => pure none
  | .str s => pure (some (.text s))
  | _ => .error (.validationError "text content must be a string")

/-- Pydantic `ContentBlockToolUse` validation: `id`/`name` must be strings
and `input` a dict. -/
def mkToolUseBlock (toolId name input : Json) : Except PyErr RespBlock :=
  match toolId, name, input with
  | .str i, .str n, .obj f => pure (.toolUse i n f)
  | _, _, _ => .error (.validationError "tool_use block fields")

/-- The singleton-or-empty content list contributed by the text block. -/
def optBlockList : Option RespBlock → List RespBlock
  | some b => [b]
  | none => []

/-- `if not isinstance(tool_calls, list): tool_calls = [tool_calls]`. -/
def toolCallsList : Json → List Json
  | .arr l => l
  | j => [j]

def buildToolBlocks : List Json → Except PyErr (List RespBlock)
  | [] => pure []
  | tc :: rest => do
      let parts ← extractToolCallParts tc
      let input := parseArguments parts.2.2
      let blk ← mkToolUseBlock parts.1 parts.2.1 input
      let more ← buildToolBlocks rest
      pure (blk :: more)

/-- Usage extraction (src/server.py:1095-1101): dicts via `.get` (a
non-integer value later fails pydantic `Usage` validation), other values
via `getattr` with default 0. -/
def extractUsage : Json → Except PyErr (Int × Int)
  | .obj u =>
      (match jsonGetD u "prompt_tokens" (.num 0),
             jsonGetD u "completion_tokens" (.num 0) with
       | .num p, .num c => pure (p, c)
       | _, _ => .error (.validationError "usage tokens must be int"))
  | _ => pure (0, 0)

/-- The finish_reason → stop_reason mapping (src/server.py:1103-1112);
anything unrecognized maps to `end_turn`. -/
def mapFinishReason : Json → String
  | .str "stop" => "end_turn"
  | .str "length" => "max_tokens"
  | .str "tool_calls" => "tool_use"
  | _ => "end_turn"

def requireStr : Json → Except PyErr String
  | .str s => pure s
  | _ => .error (.validationError "expected a string")

/-- The dict path of `convert_litellm_to_anthropic`
(src/server.py:1022-1046 and onward): returns the response id, content
blocks, unmapped finish reason, and token counts. -/
def convertCoreDict (d : List (String × Json)) :
    Except PyErr (String × List RespBlock × Json × Int × Int) := do
  let mf ← extractMessagePart d
  let contentText ← dictGet mf.1 "content" (.str "")
  let toolCalls ← dictGet mf.1 "tool_calls" .null
  let usageInfo := jsonGetD d "usage" (.obj [])
  let responseIdJ := jsonGetD d "id" (.str ("msg_" ++ uuidHex))
  let textBlock ← mkTextBlock contentText
  let toolBlocks ←
    if jsonTruthy toolCalls then buildToolBlocks (toolCallsList toolCalls)
    else pure []
  let usagePair ← extractUsage usageInfo
  let responseId ← requireStr responseIdJ
  pure (responseId, optBlockList textBlock ++ toolBlocks,
    mf.2, usagePair.1, usagePair.2)

def buildToolBlocksModel : List LToolCallObj → Except PyErr (List RespBlock)
  | [] => pure []
  | tc :: rest => do
      let name : String :=
        match tc.function with
        | some f => f.name.getD ""
        | none => ""
      let toolId : String := tc.id.getD ("tool_" ++ uuidHex)
      let argumentsS : String :=
        match tc.function with
        | some f => f.arguments.getD "\x7b\x7d"
        | none => "\x7b\x7d"
      let blk ← mkToolUseBlock (.str toolId) (.str name)
        (parseArguments (.str argumentsS))
      let more ← buildToolBlocksModel rest
      pure (blk :: more)

/-- The `ModelResponse` object path (src/server.py:1013-1021): direct
attribute extraction. -/
def convertCoreModel (choices : List LChoiceObj) (usage : LUsageObj)
    (idOpt : Option String) :
    Except PyErr (String × List RespBlock × Json × Int × Int) := do
  let message : Option LMessageObj :=
    match choices with
    | c :: _ => c.message
    | [] => none
  let contentText : Option String :=
    match message with
    | some m => m.content
    | none => some ""
  let toolCalls : Option (List LToolCallObj) :=
    match message with
    | some m => m.toolCalls
    | none => none
  let finish : Json :=
    match choices with
    | c :: _ =>
        (match c.finishReason with
         | some s => .str s
         | none => .null)
    | [] => .str "stop"
  let textBlock : Option RespBlock :=
    match contentText with
    | none => none
    | some "" => none
    | some s => some (.text s)
  let toolBlocks ←
    match toolCalls with
    | none => pure []
    | some l => if l.isEmpty then pure [] else buildToolBlocksModel l
  pure (idOpt.getD ("msg_" ++ uuidHex), optBlockList textBlock ++ toolBlocks,
    finish, usage.promptTokens.getD 0, usage.completionTokens.getD 0)

def convertCore : LiteLLMResponse →
    Except PyErr (String × List RespBlock × Json × Int × Int)
  | .modelResp choices usage idOpt => convertCoreModel choices usage idOpt
  | .raw j => convertCoreDict (respDictOf j)

/-- Rendering of the exception text interpolated into the fallback reply
(`str(e)` — the exact wording is immaterial to the claims). -/
def pyErrStr : PyErr → String
  | .keyError k => "KeyError: " ++ k
  | .typeError m => m
  | .attributeError m => m
  | .validationError m => m

/-- The `MessagesResponse` built on the success path
(src/server.py:1114-1132): default empty text block when no content, the
finish mapping, and the extracted usage. -/
def finalizeResponse (model : String)
    (t : String × List RespBlock × Json × Int × Int) : MessagesResponseM :=
  { id := t.1
    model := model
    content := if t.2.1.isEmpty then [.text ""] else t.2.1
    stopReason := some (mapFinishReason t.2.2.1)
    usage := { inputTokens := t.2.2.2.1, outputTokens := t.2.2.2.2 } }

/-- The fallback reply of the `except` arm (src/server.py:1134-1148). -/
def fallbackResponse (model : String) (e : PyErr) : MessagesResponseM :=
  { id := "msg_" ++ uuidHex
    model := model
    content := [.text ("Error converting response: " ++ pyErrStr e
      ++ ". Please check server logs.")]
    stopReason := some "end_turn"
    usage := { inputTokens := 0, outputTokens := 0 } }

/-- `convert_litellm_to_anthropic` (src/server.py:996-1148): the whole body
runs under `try`; any raised exception is answered with the fallback
reply, so the function itself is total. -/
def convertLitellmToAnthropic (resp : LiteLLMResponse) (r : MessagesRequest) :
    MessagesResponseM :=
  match convertCore resp with
  | .ok t => finalizeResponse r.model t
  | .error e => fallbackResponse r.model e

/-- The legal Anthropic stop reasons
(`Literal["end_turn","max_tokens","stop_sequence","tool_use"]`). -/
def validStop : Option String → Bool
  | some "end_turn" => true
  | some "max_tokens" => true
  | some "stop_sequence" => true
  | some "tool_use" => true
  | _ => false

theorem mapFinishReason_valid (j : Json) :
    validStop (some (mapFinishReason j)) = true := by
  unfold mapFinishReason
  split <;> rfl

/-- C4: for every backend response value of any modelled shape and every
original request, the non-streaming Response Translator returns a
structurally valid Anthropic-shaped response (a total function with at
least one content block, role `assistant`, and a legal stop reason), and
whenever the internal conversion fails, the reply carries the error text as
a single text block with stop_reason `end_turn` and zeroed usage. -/
theorem convert_litellm_total_and_fallback
    (resp : LiteLLMResponse) (r : MessagesRequest) :
    ((convertLitellmToAnthropic resp r).content ≠ [] ∧
     (convertLitellmToAnthropic resp r).role = "assistant" ∧
     validStop (convertLitellmToAnthropic resp r).stopReason = true) ∧
    (∀ e : PyErr, convertCore resp = .error e →
      (convertLitellmToAnthropic resp r).content
        = [.text ("Error converting response: " ++ pyErrStr e
            ++ ". Please check server logs.")] ∧
      (convertLitellmToAnthropic resp r).stopReason = some "end_turn" ∧
      (convertLitellmToAnthropic resp r).usage.inputTokens = 0 ∧
      (convertLitellmToAnthropic resp r).usage.outputTokens = 0) := by
  constructor
  · unfold convertLitellmToAnthropic
    cases h : convertCore resp with
    | ok t =>
      unfold finalizeResponse
      refine ⟨?_, rfl, mapFinishReason_valid _⟩
      by_cases he : t.2.1.isEmpty
      · simp [he]
      · simp only [if_neg he]
        intro hcon
        rw [hcon] at he
        exact he rfl
    | error e =>
      unfold fallbackResponse
      exact ⟨by simp, rfl, rfl⟩
  · intro e he
    unfold convertLitellmToAnthropic
    rw [he]
    exact ⟨rfl, rfl, rfl, rfl⟩

/-- A minimal valid request used to instantiate witnesses. -/
def simpleReq : MessagesRequest :=
  { model := "openai/gpt-4o"
    maxTokens := 100
    messages := [{ role := .user, content := .str "hi" }] }

/-- Witness for C4 at a malformed backend dict (`choices[0]` is a number,
so `.get` raises): the translator answers with the fallback reply. -/
theorem convert_litellm_total_and_fallback_witness :
    convertCore (.raw (.obj [("choices", .arr [.num 1])]))
      = .error (.attributeError "object has no attribute get") ∧
    ((convertLitellmToAnthropic (.raw (.obj [("choices", .arr [.num 1])]))
        simpleReq).content
      = [.text ("Error converting response: "
          ++ pyErrStr (.attributeError "object has no attribute get")
          ++ ". Please check server logs.")] ∧
     (convertLitellmToAnthropic (.raw (.obj [("choices", .arr [.num 1])]))
        simpleReq).stopReason = some "end_turn" ∧
     (convertLitellmToAnthropic (.raw (.obj [("choices", .arr [.num 1])]))
        simpleReq).usage.inputTokens = 0 ∧
     (convertLitellmToAnthropic (.raw (.obj [("choices", .arr [.num 1])]))
        simpleReq).usage.outputTokens = 0) :=
  ⟨rfl,
    (convert_litellm_total_and_fallback (.raw (.obj [("choices", .arr [.num 1])]))
      simpleReq).2 (.attributeError "object has no attribute get") rfl⟩

/-! ## C6: the max_tokens cap -/

def pyOk {α : Type} : Except PyErr α → Bool
  | .ok _ => true
  | .error _ => false

/-- The `max_tokens` entry of a conversion result (0 when the conversion
raised, a case the cap claim does not reach). -/
def litellmMaxTokens : Except PyErr LiteLLMRequest → Nat
  | .ok o => o.maxTokens
  | .error _ => 0

theorem convertAnthropicToLitellm_maxTokens (r : MessagesRequest)
    (ms : List LMsg) (hms : convertMessages r.messages = .ok ms) :
    litellmMaxTokens (convertAnthropicToLitellm r)
      = if pyStartsWith r.model "openai/" ∨ pyStartsWith r.model "gemini/" then
          min r.maxTokens 16384
        else r.maxTokens := by
  unfold convertAnthropicToLitellm litellmMaxTokens
  rw [hms]

/-- C6: for every request whose model carries the `openai/` or `gemini/`
prefix (the OpenAI-compatible and Gemini dialects), the backend request's
`max_tokens` equals `min(requested, 16384)`; a requested value of at most
16384 passes through unchanged. -/
theorem convert_caps_max_tokens (r : MessagesRequest)
    (hok : pyOk (convertAnthropicToLitellm r) = true)
    (hpfx : pyStartsWith r.model "openai/" = true
      ∨ pyStartsWith r.model "gemini/" = true) :
    litellmMaxTokens (convertAnthropicToLitellm r) = min r.maxTokens 16384 ∧
    (r.maxTokens ≤ 16384 →
      litellmMaxTokens (convertAnthropicToLitellm r) = r.maxTokens) := by
  cases hms : convertMessages r.messages with
  | error e =>
    have hko : pyOk (convertAnthropicToLitellm r) = false := by
      unfold convertAnthropicToLitellm
      rw [hms]
      rfl
    rw [hko] at hok
    exact absurd hok (by simp)
  | ok ms =>
    have h1 := convertAnthropicToLitellm_maxTokens r ms hms
    rw [if_pos hpfx] at h1
    refine ⟨h1, fun hle => ?_⟩
    rw [h1]
    exact min_eq_left hle

/-- The scenario request of the claim: `max_tokens = 50000` against an
OpenAI-compatible target. -/
def req50k : MessagesRequest :=
  { model := "openai/gpt-4o"
    maxTokens := 50000
    messages := [{ role := .user, content := .str "hi" }] }

/-- Witness for C6: the 50000-token request is sent upstream with exactly
16384. -/
theorem convert_caps_max_tokens_witness :
    (pyOk (convertAnthropicToLitellm req50k) = true ∧
     pyStartsWith req50k.model "openai/" = true ∧
     min req50k.maxTokens 16384 = 16384) ∧
    (litellmMaxTokens (convertAnthropicToLitellm req50k)
        = min req50k.maxTokens 16384 ∧
     (req50k.maxTokens ≤ 16384 →
       litellmMaxTokens (convertAnthropicToLitellm req50k) = req50k.maxTokens)) :=
  ⟨⟨rfl, rfl, rfl⟩, convert_caps_max_tokens req50k rfl (Or.inl rfl)⟩

/-! ## C7: round-trip preservation -/

/-- The counterexample request: a system prompt plus one user message. -/
def c7sys : MessagesRequest :=
  { model := "m"
    maxTokens := 10
    messages := [{ role := .user, content := .str "hi" }]
    system := some (.inl "s") }

/-- C7 counterexample: translating the request to backend form does not
preserve the message count or the role sequence — the system prompt becomes
an extra leading `system` message. -/
theorem round_trip_counterexample :
    (convertAnthropicToLitellm c7sys).map (fun o => o.messages.length) = .ok 2 ∧
    c7sys.messages.length = 1 ∧
    (convertAnthropicToLitellm c7sys).map
      (fun o => o.messages.map (fun lm => lm.role)) = .ok ["system", "user"] ∧
    c7sys.messages.map (fun m => m.role.toStr) = ["user"] ∧
    (2 : Nat) ≠ 1 :=
  ⟨rfl, rfl, rfl, rfl, by decide⟩

theorem convertMessages_string_roles (msgs : List AnthMessage)
    (h : ∀ m ∈ msgs, ∃ s, m.content = .str s) :
    (convertMessages msgs).map (fun ms => ms.map (fun lm => lm.role))
      = .ok (msgs.map (fun m => m.role.toStr)) := by
  induction msgs with
  | nil => rfl
  | cons m rest ih =>
    obtain ⟨s, hs⟩ := h m (by simp)
    have hrest := ih (fun m2 hm2 => h m2 (by simp [hm2]))
    unfold convertMessages convertMessage
    rw [hs]
    cases hrec : convertMessages rest with
    | error e =>
      rw [hrec] at hrest
      exact absurd hrest (by simp [Except.map])
    | ok ms2 =>
      rw [hrec] at hrest
      simp [Except.map] at hrest ⊢
      exact hrest

/-- The shape of one well-formed backend tool call in a response dict. -/
def toolCallShape (tid nm args : String) : Json :=
  .obj [("id", .str tid),
        ("function", .obj [("name", .str nm), ("arguments", .str args)])]

/-- A well-formed backend response dict carrying the given content value,
tool calls and finish reason. -/
def respWithToolCalls (contentVal : Json) (tcs : List Json) (finish : Json) :
    Json :=
  .obj [("id", .str "resp_1"),
        ("choices", .arr [.obj
          [("message", .obj [("content", contentVal), ("tool_calls", .arr tcs)]),
           ("finish_reason", finish)]]),
        ("usage", .obj [("prompt_tokens", .num 3), ("completion_tokens", .num 5)])]

/-- Holds when `json.loads` on the argument string yields a dict or fails
(the two cases in which the tool_use block passes pydantic validation). -/
def argsParseOk (s : String) : Bool :=
  match jsonLoads s with
  | some (.obj _) => true
  | some _ => false
  | none => true

theorem parseArguments_obj (args : String) (h : argsParseOk args = true) :
    ∃ f, parseArguments (.str args) = .obj f := by
  unfold argsParseOk at h
  have hpa : parseArguments (.str args)
      = (match jsonLoads args with
         | some v => v
         | none => .obj [("raw", .str args)]) := rfl
  rw [hpa]
  cases hl : jsonLoads args with
  | none => exact ⟨[("raw", .str args)], rfl⟩
  | some v =>
    cases v with
    | obj f => exact ⟨f, rfl⟩
    | null => rw [hl] at h; exact absurd h (by simp)
    | bool b => rw [hl] at h; exact absurd h (by simp)
    | num n => rw [hl] at h; exact absurd h (by simp)
    | str s2 => rw [hl] at h; exact absurd h (by simp)
    | arr l => rw [hl] at h; exact absurd h (by simp)

theorem buildToolBlocks_preserves (tcs : List Json)
    (h : ∀ tc ∈ tcs, ∃ tid nm args,
      tc = toolCallShape tid nm args ∧ argsParseOk args = true) :
    ∃ blocks, buildToolBlocks tcs = .ok blocks ∧
      ∀ tid nm args, toolCallShape tid nm args ∈ tcs →
        ∃ input, RespBlock.toolUse tid nm input ∈ blocks := by
  induction tcs with
  | nil =>
    refine ⟨[], rfl, ?_⟩
    intro tid nm args hmem
    exact absurd hmem (by simp)
  | cons tc rest ih =>
    obtain ⟨tid0, nm0, args0, htc, hargs⟩ := h tc (by simp)
    obtain ⟨blocks, hbl, hmem⟩ := ih (fun tc2 h2 => h tc2 (by simp [h2]))
    obtain ⟨f, hf⟩ := parseArguments_obj args0 hargs
    subst htc
    have hstep : buildToolBlocks (toolCallShape tid0 nm0 args0 :: rest)
        = .ok (.toolUse tid0 nm0 f :: blocks) := by
      unfold buildToolBlocks
      have hparts : extractToolCallParts (toolCallShape tid0 nm0 args0)
          = .ok (.str tid0, .str nm0, .str args0) := rfl
      rw [hparts]
      simp only [bind, Except.bind, hf, mkToolUseBlock, hbl, pure, Except.pure]
    refine ⟨.toolUse tid0 nm0 f :: blocks, hstep, ?_⟩
    intro tid nm args hmem2
    rcases List.mem_cons.mp hmem2 with heq | htail
    · have h1 : tid = tid0 ∧ nm = nm0 := by
        unfold toolCallShape at heq
        simp at heq
        exact ⟨heq.1, heq.2.1⟩
      refine ⟨f, ?_⟩
      rw [h1.1, h1.2]
      exact List.mem_cons_self _ _
    · obtain ⟨input, hin⟩ := hmem tid nm args htail
      exact ⟨input, List.mem_cons_of_mem _ hin⟩

theorem convertCore_respWithToolCalls (contentVal : Json) (tcs : List Json)
    (finish : Json) (tb : Option RespBlock) (blocks : List RespBlock)
    (htb : mkTextBlock contentVal = .ok tb)
    (hbl : buildToolBlocks tcs = .ok blocks)
    (hne : tcs ≠ []) :
    convertCore (.raw (respWithToolCalls contentVal tcs finish))
      = .ok ("resp_1", optBlockList tb ++ blocks, finish, 3, 5) := by
  cases tcs with
  | nil => exact absurd rfl hne
  | cons tc0 tcrest =>
    simp [convertCore, respWithToolCalls, respDictOf, convertCoreDict,
      extractMessagePart, jsonGetD, jsonLookup, jsonTruthy, pyLen, indexZero,
      dictGet, toolCallsList, extractUsage, requireStr, htb, hbl,
      bind, Except.bind, pure, Except.pure]

/-- C7 (amended): request translation preserves the message count and the
role sequence when there is no system prompt and every message has plain
string content (in general the count grows: a system prompt adds a leading
`system` message and each `tool_result` block becomes its own `tool`
message); and for every well-formed backend response, each tool call's id
and name appear unchanged on a `tool_use` block of the canonical
response's content. -/
theorem round_trip_preserves_structure :
    (∀ r : MessagesRequest, r.system = none →
      (∀ m ∈ r.messages, ∃ s, m.content = MsgContent.str s) →
      (convertAnthropicToLitellm r).map
          (fun o => o.messages.map (fun lm => lm.role))
        = .ok (r.messages.map (fun m => m.role.toStr)) ∧
      (convertAnthropicToLitellm r).map (fun o => o.messages.length)
        = .ok r.messages.length) ∧
    (∀ (contentVal : Json) (tcs : List Json) (finish : Json)
       (r : MessagesRequest) (tb : Option RespBlock),
      mkTextBlock contentVal = .ok tb →
      (∀ tc ∈ tcs, ∃ tid nm args,
        tc = toolCallShape tid nm args ∧ argsParseOk args = true) →
      ∀ tid nm args, toolCallShape tid nm args ∈ tcs →
        ∃ input, RespBlock.toolUse tid nm input
          ∈ (convertLitellmToAnthropic
              (.raw (respWithToolCalls contentVal tcs finish)) r).content) := by
  constructor
  · intro r hsys hstr
    have hroles := convertMessages_string_roles r.messages hstr
    cases hms : convertMessages r.messages with
    | error e =>
      rw [hms] at hroles
      exact absurd hroles (by simp [Except.map])
    | ok ms =>
      rw [hms] at hroles
      simp only [Except.map] at hroles
      have hroles2 : ms.map (fun lm => lm.role)
          = r.messages.map (fun m => m.role.toStr) := by
        cases hcon : (Except.ok (ε := PyErr) (ms.map (fun lm => lm.role))) with
        | ok v => exact Except.ok.inj hroles
        | error e => exact Except.noConfusion hcon
      constructor
      · unfold convertAnthropicToLitellm
        rw [hms, hsys]
        simp only [Except.map, systemMessages, List.nil_append]
        rw [hroles2]
      · unfold convertAnthropicToLitellm
        rw [hms, hsys]
        simp only [Except.map, systemMessages, List.nil_append]
        have hlen := congrArg List.length hroles2
        simp only [List.length_map] at hlen
        rw [hlen]
  · intro contentVal tcs finish r tb htb hwf tid nm args hmem
    obtain ⟨blocks, hbl, hblmem⟩ := buildToolBlocks_preserves tcs hwf
    have hne : tcs ≠ [] := List.ne_nil_of_mem hmem
    have hcore := convertCore_respWithToolCalls contentVal tcs finish tb blocks
      htb hbl hne
    obtain ⟨input, hin⟩ := hblmem tid nm args hmem
    refine ⟨input, ?_⟩
    unfold convertLitellmToAnthropic
    rw [hcore]
    unfold finalizeResponse
    have hbne : blocks ≠ [] := by
      intro hcon
      rw [hcon] at hin
      exact absurd hin (by simp)
    have hemp : (optBlockList tb ++ blocks).isEmpty = false := by
      cases hb : optBlockList tb ++ blocks with
      | nil =>
        have := List.append_eq_nil.mp hb
        exact absurd this.2 hbne
      | cons x xs => rfl
    simp only [hemp]
    rw [if_neg (by simp [hemp])]
    exact List.mem_append_right _ hin

/-- Witness for C7 at concrete inputs: a plain one-message request keeps
role sequence `[user]`, and the tool call `("toolu_1", "f")` of a
well-formed backend response surfaces as a `tool_use` block. -/
theorem round_trip_preserves_structure_witness :
    (simpleReq.system = none ∧ simpleReq.messages.length = 1) ∧
    (convertAnthropicToLitellm simpleReq).map
        (fun o => o.messages.map (fun lm => lm.role))
      = .ok (simpleReq.messages.map (fun m => m.role.toStr)) ∧
    (∃ input, RespBlock.toolUse "toolu_1" "f" input
      ∈ (convertLitellmToAnthropic
          (.raw (respWithToolCalls .null [toolCallShape "toolu_1" "f" "\x7b\x7d"]
            (.str "tool_calls"))) simpleReq).content) :=
  ⟨⟨rfl, rfl⟩,
   (round_trip_preserves_structure.1 simpleReq rfl
     (by
       intro m hm
       simp [simpleReq] at hm
       exact ⟨"hi", by rw [hm]⟩)).1,
   round_trip_preserves_structure.2 .null [toolCallShape "toolu_1" "f" "\x7b\x7d"]
     (.str "tool_calls") simpleReq none rfl
     (by
       intro tc htc
       simp at htc
       exact ⟨"toolu_1", "f", "\x7b\x7d", htc, rfl⟩)
     "toolu_1" "f" "\x7b\x7d" (by simp)⟩

/-! ## Streaming Reconstructor: `handle_streaming` (src/server.py:1150-1550).
The async generator is embedded as a pure function from the incoming chunk
list to the emitted SSE event list; the generator's Python locals become
the `StreamState` record threaded through the fold. -/

inductive BlockInfo where
  | text
  | toolUse (id : String) (name : String)
  deriving Repr, DecidableEq

inductive DeltaInfo where
  | textDelta (text : String)
  | inputJsonDelta (partialJson : String)
  deriving Repr, DecidableEq

/-- One Anthropic SSE event, with exactly the payload pieces the claims
talk about. -/
inductive SSEEvent where
  | messageStart (model : String)
  | contentBlockStart (index : Nat) (block : BlockInfo)
  | ping
  | contentBlockDelta (index : Nat) (delta : DeltaInfo)
  | contentBlockStop (index : Nat)
  | messageDelta (stopReason : String) (outputTokens : Nat)
  | messageStop
  | done
  deriving Repr, DecidableEq

/-- A tool-call argument fragment: pre-serialized string or structured
dict, as the source accepts both. -/
inductive ToolArgs where
  | str (s : String)
  | dict (d : List (String × Json))

/-- `function` field of a streamed tool-call fragment. -/
structure ChunkFunction where
  name : Option String := none
  arguments : Option ToolArgs := none

structure ChunkToolCall where
  index : Option Nat := none
  id : Option String := none
  function : Option ChunkFunction := none

structure ChunkDelta where
  content : Option String := none
  toolCalls : Option (List ChunkToolCall) := none

structure ChunkChoice where
  delta : ChunkDelta
  finishReason : Option String := none

structure ChunkUsage where
  promptTokens : Option Nat := none
  completionTokens : Option Nat := none

/-- One backend stream fragment. -/
structure StreamChunk where
  usage : Option ChunkUsage := none
  choices : List ChunkChoice := []

/-- The generator's mutable locals (src/server.py:1182-1191). -/
structure StreamState where
  toolIndex : Option Nat := none
  anthropicToolIndex : Nat := 0
  toolContent : String := ""
  accumulatedText : String := ""
  textSent : Bool := false
  textBlockClosed : Bool := false
  inputTokens : Nat := 0
  outputTokens : Nat := 0
  lastToolIndex : Nat := 0

/-- Python truthiness of an argument fragment (`if arguments:`). -/
def argsTruthy : ToolArgs → Bool
  | .str s => s ≠ ""
  | .dict d => !d.isEmpty

/-- The `args_json` computation (src/server.py:1319-1330): a dict is
serialized, a string is forwarded verbatim whether or not it parses. -/
def argsJson : ToolArgs → String
  | .dict d => jsonDumps (.obj d)
  | .str s => s

/-- The finish_reason → stop_reason mapping of the streaming path
(src/server.py:1355-1362). -/
def mapStopReason (fr : String) : String :=
  if fr = "length" then "max_tokens"
  else if fr = "tool_calls" then "tool_use"
  else "end_turn"

/-- Usage-counter update (src/server.py:1202-1206). -/
def updateUsage (s : StreamState) : Option ChunkUsage → StreamState
  | none => s
  | some u =>
      let s1 :=
        match u.promptTokens with
        | some p => { s with inputTokens := p }
        | none => s
      match u.completionTokens with
      | some ct => { s1 with outputTokens := ct }
      | none => s1

/-- Text-delta handling (src/server.py:1232-1239): accumulate, and forward
on block 0 while no tool call has started and the text block is open. -/
def processTextDelta (s : StreamState) :
    Option String → StreamState × List SSEEvent
  | none => (s, [])
  | some dc =>
      if dc ≠ "" then
        let s1 := { s with accumulatedText := s.accumulatedText ++ dc }
        if s1.toolIndex = none ∧ s1.textBlockClosed = false then
          ({ s1 with textSent := true },
           [.contentBlockDelta 0 (.textDelta dc)])
        else (s1, [])
      else (s, [])

/-- Closing of text block 0 on the first tool-call fragment
(src/server.py:1252-1270): flush unsent accumulated text first, close at
most once. -/
def closeTextOnFirstTool (s : StreamState) : StreamState × List SSEEvent :=
  if s.toolIndex = none then
    if s.textSent ∧ s.textBlockClosed = false then
      ({ s with textBlockClosed := true }, [.contentBlockStop 0])
    else if s.accumulatedText ≠ "" ∧ s.textSent = false
        ∧ s.textBlockClosed = false then
      ({ s with textSent := true, textBlockClosed := true },
       [.contentBlockDelta 0 (.textDelta s.accumulatedText),
        .contentBlockStop 0])
    else if s.textBlockClosed = false then
      ({ s with textBlockClosed := true }, [.contentBlockStop 0])
    else (s, [])
  else (s, [])

/-- One streamed tool-call fragment (src/server.py:1276-1336): open a new
Anthropic block when the backend index changes, then forward the argument
fragment. -/
def processToolCall (s : StreamState) (tc : ChunkToolCall) :
    StreamState × List SSEEvent :=
  let currentIndex := tc.index.getD 0
  let (s1, evs1) :=
    if s.toolIndex = none ∨ s.toolIndex ≠ some currentIndex then
      let newLast := s.lastToolIndex + 1
      let name :=
        match tc.function with
        | some f => f.name.getD ""
        | none => ""
      let toolId := tc.id.getD ("toolu_" ++ uuidHex)
      ({ s with toolIndex := some currentIndex,
                lastToolIndex := newLast,
                anthropicToolIndex := newLast,
                toolContent := "" },
       [SSEEvent.contentBlockStart newLast (.toolUse toolId name)])
    else (s, [])
  let arguments : ToolArgs :=
    match tc.function with
    | some f => f.arguments.getD (.str "")
    | none => .str ""
  if argsTruthy arguments then
    let aj := argsJson arguments
    ({ s1 with toolContent := s1.toolContent ++ aj },
     evs1 ++ [SSEEvent.contentBlockDelta s1.anthropicToolIndex (.inputJsonDelta aj)])
  else (s1, evs1)

def processToolCalls (s : StreamState) : List ChunkToolCall →
    StreamState × List SSEEvent
  | [] => (s, [])
  | tc :: rest =>
      let r1 := processToolCall s tc
      let r2 := processToolCalls r1.1 rest
      (r2.1, r1.2 ++ r2.2)

/-- The tool-call part of one chunk, including the one-time close of text
block 0; `if delta_tool_calls:` makes an empty list behave like none. -/
def processToolCallsStep (s : StreamState) :
    Option (List ChunkToolCall) → StreamState × List SSEEvent
  | none => (s, [])
  | some tcs =>
      if tcs.isEmpty then (s, [])
      else
        let r1 := closeTextOnFirstTool s
        let r2 := processToolCalls r1.1 tcs
        (r2.1, r1.2 ++ r2.2)

/-- The terminal event sequence of the finish branch
(src/server.py:1339-1373): close tool blocks 1..last in ascending order,
flush/close the text block if still open, then `message_delta`,
`message_stop` and the done marker. -/
def finishEvents (s : StreamState) (fr : String) : List SSEEvent :=
  (if s.toolIndex ≠ none then
    (List.range s.lastToolIndex).map (fun i => SSEEvent.contentBlockStop (i + 1))
   else []) ++
  (if s.textBlockClosed = false then
    (if s.accumulatedText ≠ "" ∧ s.textSent = false then
      [SSEEvent.contentBlockDelta 0 (.textDelta s.accumulatedText)]
     else []) ++ [SSEEvent.contentBlockStop 0]
   else []) ++
  [.messageDelta (mapStopReason fr) s.outputTokens, .messageStop, .done]

/-- Processing of one chunk (the loop body, src/server.py:1197-1407): text
deltas, then tool calls, then the finish signal; the `true` flag reports
that the generator returned. -/
def processChunk (s : StreamState) (c : StreamChunk) :
    StreamState × List SSEEvent × Bool :=
  let s0 := updateUsage s c.usage
  match c.choices with
  | [] => (s0, [], false)
  | choice :: _ =>
      let r1 := processTextDelta s0 choice.delta.content
      let r2 := processToolCallsStep r1.1 choice.delta.toolCalls
      match choice.finishReason with
      | some fr =>
          if fr = "" then (r2.1, r1.2 ++ r2.2, false)
          else (r2.1, r1.2 ++ r2.2 ++ finishEvents r2.1 fr, true)
      | none => (r2.1, r1.2 ++ r2.2, false)

def runChunks : StreamState → List StreamChunk →
    StreamState × List SSEEvent × Bool
  | s, [] => (s, [], false)
  | s, c :: cs =>
      let r1 := processChunk s c
      if r1.2.2 then (r1.1, r1.2.1, true)
      else
        let r2 := runChunks r1.1 cs
        (r2.1, r1.2.1 ++ r2.2.1, r2.2.2)

/-- The defensive closing sequence run when the upstream ends without a
finish signal (src/server.py:1413-1432): tool blocks first, then an
unconditional `content_block_stop` for index 0. -/
def tailClose (s : StreamState) : List SSEEvent :=
  (if s.toolIndex ≠ none then
    (List.range s.lastToolIndex).map (fun i => SSEEvent.contentBlockStop (i + 1))
   else []) ++
  [.contentBlockStop 0,
   .messageDelta "end_turn" s.outputTokens, .messageStop, .done]

/-- The fixed stream opening (src/server.py:1153-1180): `message_start`,
text block 0 opened, keep-alive ping. -/
def streamPrologue (model : String) : List SSEEvent :=
  [.messageStart model, .contentBlockStart 0 .text, .ping]

/-- `handle_streaming` (src/server.py:1150-1432) as a pure function of the
whole fragment list. -/
def handleStreaming (chunks : List StreamChunk) (model : String) :
    List SSEEvent :=
  let r := runChunks {} chunks
  streamPrologue model ++ r.2.1 ++ (if r.2.2 then [] else tailClose r.1)

/-! ## C2: the streamed tool-call scenario -/

/-- The scenario's tool-call fragment: backend index 0, tool `f`, argument
fragment `{"a":1}`. -/
def c2toolCall : ChunkToolCall :=
  { index := some 0
    id := some "toolu_01"
    function := some { name := some "f",
                       arguments := some (.str "\x7b\"a\":1\x7d") } }

def c2chunk1 : StreamChunk :=
  { choices := [{ delta := { content := some "Hello" } }] }

def c2chunk2 : StreamChunk :=
  { choices := [{ delta := { toolCalls := some [c2toolCall] } }] }

def c2chunk3 : StreamChunk :=
  { choices := [{ delta := {}, finishReason := some "tool_calls" }] }

/-- The event order the claim asserts for the scenario (no ping). -/
def c2claimedEvents : List SSEEvent :=
  [.messageStart "m", .contentBlockStart 0 .text,
   .contentBlockDelta 0 (.textDelta "Hello"),
   .contentBlockStop 0,
   .contentBlockStart 1 (.toolUse "toolu_01" "f"),
   .contentBlockDelta 1 (.inputJsonDelta "\x7b\"a\":1\x7d"),
   .contentBlockStop 1,
   .messageDelta "tool_use" 0,
   .messageStop, .done]

/-- C2 counterexample: the Reconstructor does not emit exactly the claimed
ten-event sequence — a keep-alive `ping` is also emitted right after the
text block opens (src/server.py:1180). -/
theorem streaming_scenario_counterexample :
    handleStreaming [c2chunk1, c2chunk2, c2chunk3] "m" ≠ c2claimedEvents := by
  decide

/-- C2 (amended): for the scenario fragments, the Reconstructor emits
exactly the claimed Anthropic event sequence with one `ping` event inserted
between `content_block_start(0)` and the first text delta: message_start,
content_block_start(0, text), ping, content_block_delta(0, "Hello"),
content_block_stop(0), content_block_start(1, tool_use),
content_block_delta(1, partial json), content_block_stop(1),
message_delta(tool_use, output tokens), message_stop, and the final done
marker, in that order. -/
theorem streaming_scenario_events :
    handleStreaming [c2chunk1, c2chunk2, c2chunk3] "m"
      = [.messageStart "m", .contentBlockStart 0 .text, .ping,
         .contentBlockDelta 0 (.textDelta "Hello"),
         .contentBlockStop 0,
         .contentBlockStart 1 (.toolUse "toolu_01" "f"),
         .contentBlockDelta 1 (.inputJsonDelta "\x7b\"a\":1\x7d"),
         .contentBlockStop 1,
         .messageDelta "tool_use" 0,
         .messageStop, .done] := by
  decide

/-! ## C3: idempotence of block closing -/

/-- Number of `content_block_stop` events for index `i` in an event list. -/
def countStop (i : Nat) (evs : List SSEEvent) : Nat :=
  (evs.filter (fun e => e = SSEEvent.contentBlockStop i)).length

/-- C3 counterexample: a stream consisting of one tool-call fragment and no
finish signal closes text block 0 twice — once when the tool call arrives
and once more in the defensive closing sequence (src/server.py:1421), which
emits `content_block_stop(0)` unconditionally. -/
theorem streaming_double_close_counterexample :
    countStop 0 (handleStreaming [c2chunk2] "m") = 2 ∧ ¬(2 ≤ 1) := by
  constructor
  · decide
  · decide


/-- Closed-text indicator used by the stop-count bookkeeping. -/
def closedCount (s : StreamState) : Nat :=
  if s.textBlockClosed then 1 else 0

theorem countStop_append (i : Nat) (a b : List SSEEvent) :
    countStop i (a ++ b) = countStop i a + countStop i b := by
  simp [countStop, List.filter_append]

theorem countStop_prologue (i : Nat) (model : String) :
    countStop i (streamPrologue model) = 0 := by
  simp [countStop, streamPrologue]

theorem countStop_single_stop (k j : Nat) :
    countStop j [SSEEvent.contentBlockStop k] = if k = j then 1 else 0 := by
  by_cases h : k = j
  · subst h; simp [countStop]
  · simp [countStop, h]

theorem countStop_range (n j : Nat) :
    countStop j ((List.range n).map (fun i => SSEEvent.contentBlockStop (i+1)))
      = if 1 ≤ j ∧ j ≤ n then 1 else 0 := by
  induction n with
  | zero =>
      simp [countStop]
      split <;> omega
  | succ n ih =>
      rw [List.range_succ, List.map_append, countStop_append, ih,
          List.map_singleton, countStop_single_stop]
      split <;> split <;> split <;> omega

theorem updateUsage_closed (s : StreamState) (u : Option ChunkUsage) :
    (updateUsage s u).textBlockClosed = s.textBlockClosed := by
  cases u with
  | none => rfl
  | some u =>
      unfold updateUsage
      simp only []
      split <;> split <;> rfl

theorem processTextDelta_spec (s : StreamState) (oc : Option String) (i : Nat) :
    countStop i (processTextDelta s oc).2 = 0
    ∧ (processTextDelta s oc).1.textBlockClosed = s.textBlockClosed := by
  cases oc with
  | none => exact ⟨rfl, rfl⟩
  | some dc =>
      unfold processTextDelta
      simp only []
      split
      · split
        · exact ⟨by simp [countStop], rfl⟩
        · exact ⟨rfl, rfl⟩
      · exact ⟨rfl, rfl⟩

theorem closeTextOnFirstTool_spec (s : StreamState) :
    countStop 0 (closeTextOnFirstTool s).2 + closedCount s
      = closedCount (closeTextOnFirstTool s).1
    ∧ ∀ j, countStop (j+1) (closeTextOnFirstTool s).2 = 0 := by
  unfold closeTextOnFirstTool closedCount
  split
  · split
    · rename_i h
      constructor
      · simp [countStop, h.2]
      · intro j; simp [countStop]
    · split
      · rename_i h
        constructor
        · simp [countStop, h.2.2]
        · intro j; simp [countStop]
      · split
        · rename_i h
          constructor
          · simp [countStop, h]
          · intro j; simp [countStop]
        · rename_i h
          constructor
          · simp [countStop, Bool.of_not_eq_false h]
          · intro j; simp [countStop]
  · exact ⟨by simp [countStop], fun j => by simp [countStop]⟩

theorem countStop_processToolCall_events (s : StreamState) (tc : ChunkToolCall)
    (i : Nat) : countStop i (processToolCall s tc).2 = 0 := by
  unfold processToolCall
  simp only []
  split <;> split <;> simp [countStop]

theorem processToolCall_textBlockClosed (s : StreamState) (tc : ChunkToolCall) :
    (processToolCall s tc).1.textBlockClosed = s.textBlockClosed := by
  unfold processToolCall
  simp only []
  split <;> split <;> simp

theorem processToolCalls_spec (tcs : List ChunkToolCall) (s : StreamState)
    (i : Nat) :
    countStop i (processToolCalls s tcs).2 = 0
    ∧ (processToolCalls s tcs).1.textBlockClosed = s.textBlockClosed := by
  induction tcs generalizing s with
  | nil => exact ⟨rfl, rfl⟩
  | cons tc rest ih =>
      unfold processToolCalls
      simp only []
      constructor
      · rw [countStop_append, countStop_processToolCall_events,
            (ih _).1]
      · rw [(ih _).2, processToolCall_textBlockClosed]

theorem processToolCallsStep_spec (s : StreamState)
    (otcs : Option (List ChunkToolCall)) :
    countStop 0 (processToolCallsStep s otcs).2 + closedCount s
      = closedCount (processToolCallsStep s otcs).1
    ∧ ∀ j, countStop (j+1) (processToolCallsStep s otcs).2 = 0 := by
  cases otcs with
  | none => exact ⟨by simp [processToolCallsStep, countStop],
                   fun j => by simp [processToolCallsStep, countStop]⟩
  | some tcs =>
      unfold processToolCallsStep
      simp only []
      split
      · exact ⟨by simp [countStop], fun j => by simp [countStop]⟩
      · constructor
        · rw [countStop_append,
              (processToolCalls_spec tcs (closeTextOnFirstTool s).1 0).1,
              Nat.add_zero]
          rw [(closeTextOnFirstTool_spec s).1]
          unfold closedCount
          rw [(processToolCalls_spec tcs (closeTextOnFirstTool s).1 0).2]
        · intro j
          rw [countStop_append, (closeTextOnFirstTool_spec s).2 j,
              (processToolCalls_spec tcs (closeTextOnFirstTool s).1 (j+1)).1]

theorem finishEvents_spec (s : StreamState) (fr : String) :
    countStop 0 (finishEvents s fr) + closedCount s = 1
    ∧ ∀ j, countStop (j+1) (finishEvents s fr) ≤ 1 := by
  unfold finishEvents closedCount
  constructor
  · rw [countStop_append, countStop_append]
    have htail : countStop 0 [SSEEvent.messageDelta (mapStopReason fr)
        s.outputTokens, SSEEvent.messageStop, SSEEvent.done] = 0 := by
      simp [countStop]
    rw [htail]
    have htool : countStop 0 (if s.toolIndex ≠ none then
        (List.range s.lastToolIndex).map
          (fun i => SSEEvent.contentBlockStop (i + 1))
        else []) = 0 := by
      split
      · rw [countStop_range]; simp
      · simp [countStop]
    rw [htool]
    split
    · rename_i h
      rw [countStop_append, countStop_single_stop]
      have hdelta : countStop 0 (if s.accumulatedText ≠ ""
          ∧ s.textSent = false then
          [SSEEvent.contentBlockDelta 0 (.textDelta s.accumulatedText)]
          else []) = 0 := by
        split <;> simp [countStop]
      rw [hdelta]
      simp [h]
    · rename_i h
      simp [countStop, Bool.of_not_eq_false h]
  · intro j
    rw [countStop_append, countStop_append]
    have htail : countStop (j+1) [SSEEvent.messageDelta (mapStopReason fr)
        s.outputTokens, SSEEvent.messageStop, SSEEvent.done] = 0 := by
      simp [countStop]
    rw [htail]
    have htool : countStop (j+1) (if s.toolIndex ≠ none then
        (List.range s.lastToolIndex).map
          (fun i => SSEEvent.contentBlockStop (i + 1))
        else []) ≤ 1 := by
      split
      · rw [countStop_range]; split <;> omega
      · simp [countStop]
    have htext : countStop (j+1) (if s.textBlockClosed = false then
        (if s.accumulatedText ≠ "" ∧ s.textSent = false then
          [SSEEvent.contentBlockDelta 0 (.textDelta s.accumulatedText)]
          else []) ++ [SSEEvent.contentBlockStop 0]
        else []) = 0 := by
      split
      · rw [countStop_append, countStop_single_stop]
        have : countStop (j+1) (if s.accumulatedText ≠ ""
            ∧ s.textSent = false then
            [SSEEvent.contentBlockDelta 0 (.textDelta s.accumulatedText)]
            else []) = 0 := by
          split <;> simp [countStop]
        rw [this]
        simp
      · simp [countStop]
    omega

theorem closedCount_processTextDelta (s : StreamState) (u : Option ChunkUsage)
    (oc : Option String) :
    closedCount (processTextDelta (updateUsage s u) oc).1 = closedCount s := by
  unfold closedCount
  rw [(processTextDelta_spec _ _ 0).2, updateUsage_closed]

theorem processChunk_spec (s : StreamState) (c : StreamChunk) :
    (if (processChunk s c).2.2 then
       countStop 0 (processChunk s c).2.1 + closedCount s = 1
     else
       countStop 0 (processChunk s c).2.1 + closedCount s
         = closedCount (processChunk s c).1)
    ∧ ∀ j, countStop (j+1) (processChunk s c).2.1
        ≤ (if (processChunk s c).2.2 then 1 else 0) := by
  cases hc : c.choices with
  | nil =>
      have hpc : processChunk s c = (updateUsage s c.usage, [], false) := by
        unfold processChunk
        rw [hc]
      rw [hpc]
      constructor
      · rw [if_neg Bool.false_ne_true]
        simp [countStop, closedCount, updateUsage_closed]
      · intro j
        rw [if_neg Bool.false_ne_true]
        simp [countStop]
  | cons choice tl =>
      cases hfin : choice.finishReason with
      | none =>
          have hpc : processChunk s c
              = ((processToolCallsStep (processTextDelta (updateUsage s c.usage)
                    choice.delta.content).1 choice.delta.toolCalls).1,
                 (processTextDelta (updateUsage s c.usage)
                    choice.delta.content).2 ++
                   (processToolCallsStep (processTextDelta
                      (updateUsage s c.usage) choice.delta.content).1
                      choice.delta.toolCalls).2,
                 false) := by
            unfold processChunk
            rw [hc]
            simp only []
            rw [hfin]
          rw [hpc]
          constructor
          · rw [if_neg Bool.false_ne_true]
            have h2 := (processToolCallsStep_spec (processTextDelta
              (updateUsage s c.usage) choice.delta.content).1
              choice.delta.toolCalls).1
            rw [closedCount_processTextDelta] at h2
            rw [countStop_append, (processTextDelta_spec _ _ 0).1,
                Nat.zero_add]
            exact h2
          · intro j
            rw [if_neg Bool.false_ne_true]
            rw [countStop_append, (processTextDelta_spec _ _ (j+1)).1,
                Nat.zero_add, (processToolCallsStep_spec _ _).2 j]
      | some fr =>
          by_cases hfr : fr = ""
          · have hpc : processChunk s c
                = ((processToolCallsStep (processTextDelta
                      (updateUsage s c.usage)
                      choice.delta.content).1 choice.delta.toolCalls).1,
                   (processTextDelta (updateUsage s c.usage)
                      choice.delta.content).2 ++
                     (processToolCallsStep (processTextDelta
                        (updateUsage s c.usage) choice.delta.content).1
                        choice.delta.toolCalls).2,
                   false) := by
              unfold processChunk
              rw [hc]
              simp only []
              rw [hfin]
              simp only []
              rw [if_pos hfr]
            rw [hpc]
            constructor
            · rw [if_neg Bool.false_ne_true]
              have h2 := (processToolCallsStep_spec (processTextDelta
                (updateUsage s c.usage) choice.delta.content).1
                choice.delta.toolCalls).1
              rw [closedCount_processTextDelta] at h2
              rw [countStop_append, (processTextDelta_spec _ _ 0).1,
                  Nat.zero_add]
              exact h2
            · intro j
              rw [if_neg Bool.false_ne_true]
              rw [countStop_append, (processTextDelta_spec _ _ (j+1)).1,
                  Nat.zero_add, (processToolCallsStep_spec _ _).2 j]
          · have hpc : processChunk s c
                = ((processToolCallsStep (processTextDelta
                      (updateUsage s c.usage)
                      choice.delta.content).1 choice.delta.toolCalls).1,
                   (processTextDelta (updateUsage s c.usage)
                      choice.delta.content).2 ++
                     (processToolCallsStep (processTextDelta
                        (updateUsage s c.usage) choice.delta.content).1
                        choice.delta.toolCalls).2 ++
                     finishEvents (processToolCallsStep (processTextDelta
                        (updateUsage s c.usage) choice.delta.content).1
                        choice.delta.toolCalls).1 fr,
                   true) := by
              unfold processChunk
              rw [hc]
              simp only []
              rw [hfin]
              simp only []
              rw [if_neg hfr]
            rw [hpc]
            constructor
            · rw [if_pos rfl]
              have h2 := (processToolCallsStep_spec (processTextDelta
                (updateUsage s c.usage) choice.delta.content).1
                choice.delta.toolCalls).1
              rw [closedCount_processTextDelta] at h2
              have h3 := (finishEvents_spec (processToolCallsStep
                (processTextDelta (updateUsage s c.usage)
                  choice.delta.content).1 choice.delta.toolCalls).1 fr).1
              rw [countStop_append, countStop_append,
                  (processTextDelta_spec _ _ 0).1, Nat.zero_add]
              omega
            · intro j
              rw [if_pos rfl]
              have h3 := (finishEvents_spec (processToolCallsStep
                (processTextDelta (updateUsage s c.usage)
                  choice.delta.content).1 choice.delta.toolCalls).1 fr).2 j
              rw [countStop_append, countStop_append,
                  (processTextDelta_spec _ _ (j+1)).1, Nat.zero_add,
                  (processToolCallsStep_spec _ _).2 j, Nat.zero_add]
              exact h3

theorem runChunks_cons (s : StreamState) (c : StreamChunk)
    (cs : List StreamChunk) :
    runChunks s (c :: cs)
      = (if (processChunk s c).2.2 then
           ((processChunk s c).1, (processChunk s c).2.1, true)
         else
           ((runChunks (processChunk s c).1 cs).1,
            (processChunk s c).2.1
              ++ (runChunks (processChunk s c).1 cs).2.1,
            (runChunks (processChunk s c).1 cs).2.2)) := rfl

theorem runChunks_countStop (cs : List StreamChunk) (s : StreamState) :
    (if (runChunks s cs).2.2 then
       countStop 0 (runChunks s cs).2.1 + closedCount s = 1
     else
       countStop 0 (runChunks s cs).2.1 + closedCount s
         = closedCount (runChunks s cs).1)
    ∧ ∀ j, countStop (j+1) (runChunks s cs).2.1
        ≤ (if (runChunks s cs).2.2 then 1 else 0) := by
  induction cs generalizing s with
  | nil =>
      constructor
      · simp [runChunks, countStop]
      · intro j
        simp [runChunks, countStop]
  | cons c rest ih =>
      have hpc := processChunk_spec s c
      cases hflag : (processChunk s c).2.2 with
      | true =>
          simp only [hflag, eq_self_iff_true, if_true] at hpc
          have e : runChunks s (c :: rest)
              = ((processChunk s c).1, (processChunk s c).2.1, true) := by
            rw [runChunks_cons, if_pos hflag]
          constructor
          · rw [e]
            simp only [if_true]
            exact hpc.1
          · intro j
            rw [e]
            simp only [if_true]
            exact hpc.2 j
      | false =>
          have hfneg : ¬((processChunk s c).2.2 = true) := by
            rw [hflag]; exact Bool.false_ne_true
          simp only [hflag, Bool.false_eq_true, if_false] at hpc
          have hpc2 : ∀ j, countStop (j+1) (processChunk s c).2.1 = 0 := by
            intro j
            have := hpc.2 j
            omega
          have e : runChunks s (c :: rest)
              = ((runChunks (processChunk s c).1 rest).1,
                 (processChunk s c).2.1
                   ++ (runChunks (processChunk s c).1 rest).2.1,
                 (runChunks (processChunk s c).1 rest).2.2) := by
            rw [runChunks_cons, if_neg hfneg]
          have ihr := ih (processChunk s c).1
          cases hflag2 : (runChunks (processChunk s c).1 rest).2.2 with
          | true =>
              simp only [hflag2, eq_self_iff_true, if_true] at ihr
              constructor
              · rw [e]
                simp only [hflag2, eq_self_iff_true, if_true]
                rw [countStop_append]
                have h1 := hpc.1
                have h2 := ihr.1
                omega
              · intro j
                rw [e]
                simp only [hflag2, eq_self_iff_true, if_true]
                rw [countStop_append, hpc2 j, Nat.zero_add]
                exact ihr.2 j
          | false =>
              simp only [hflag2, Bool.false_eq_true, if_false] at ihr
              constructor
              · rw [e]
                simp only [hflag2, Bool.false_eq_true, if_false]
                rw [countStop_append]
                have h1 := hpc.1
                have h2 := ihr.1
                omega
              · intro j
                rw [e]
                simp only [hflag2, Bool.false_eq_true, if_false]
                rw [countStop_append, hpc2 j, Nat.zero_add]
                exact ihr.2 j

theorem runChunks_append (a b : List StreamChunk) (s : StreamState)
    (h : (runChunks s a).2.2 = false) :
    runChunks s (a ++ b)
      = ((runChunks (runChunks s a).1 b).1,
         (runChunks s a).2.1 ++ (runChunks (runChunks s a).1 b).2.1,
         (runChunks (runChunks s a).1 b).2.2) := by
  induction a generalizing s with
  | nil =>
      simp [runChunks]
  | cons c rest ih =>
      cases hflag : (processChunk s c).2.2 with
      | true =>
          rw [runChunks_cons, if_pos hflag] at h
          simp at h
      | false =>
          have hfneg : ¬((processChunk s c).2.2 = true) := by
            rw [hflag]; exact Bool.false_ne_true
          rw [runChunks_cons, if_neg hfneg] at h
          simp only [] at h
          rw [List.cons_append, runChunks_cons, if_neg hfneg,
              runChunks_cons, if_neg hfneg]
          simp only []
          rw [ih _ h]
          simp [List.append_assoc]

theorem runChunks_terminal_cons (s : StreamState) (c : StreamChunk)
    (rest : List StreamChunk) (h : (processChunk s c).2.2 = true) :
    runChunks s (c :: rest) = runChunks s [c] := by
  rw [runChunks_cons, runChunks_cons, if_pos h, if_pos h]

/-- C3 (amended): in the Streaming Reconstructor, (i) whenever the stream is
terminated by a finish signal, every content block index receives at most one
`content_block_stop` event in the whole emitted stream — closing an
already-closed block is a no-op — and (ii) only the first terminal finish
signal is processed: once a chunk carries a terminating finish reason, all
later fragments are ignored and the emitted stream equals the one for the
input truncated right after that chunk. (The original claim's inclusion of
streams that end without a finish signal is refuted separately: the
defensive closing sequence re-emits `content_block_stop` for block 0.) -/
theorem streaming_close_idempotent (chunks pre : List StreamChunk)
    (c : StreamChunk) (rest : List StreamChunk) (model : String) :
    ((runChunks {} chunks).2.2 = true →
       ∀ i, countStop i (handleStreaming chunks model) ≤ 1)
    ∧ ((runChunks {} pre).2.2 = false →
       (processChunk (runChunks {} pre).1 c).2.2 = true →
       handleStreaming (pre ++ c :: rest) model
         = handleStreaming (pre ++ [c]) model) := by
  constructor
  · intro hterm i
    unfold handleStreaming
    simp only []
    rw [if_pos hterm, List.append_nil, countStop_append, countStop_prologue,
        Nat.zero_add]
    have hrc := runChunks_countStop chunks {}
    cases i with
    | zero =>
        have h1 := hrc.1
        rw [if_pos hterm] at h1
        have hc0 : closedCount {} = 0 := rfl
        omega
    | succ j =>
        have h2 := hrc.2 j
        rw [if_pos hterm] at h2
        omega
  · intro hpre hterm
    have hr : runChunks {} (pre ++ c :: rest)
        = runChunks {} (pre ++ [c]) := by
      rw [runChunks_append pre (c :: rest) {} hpre,
          runChunks_append pre [c] {} hpre,
          runChunks_terminal_cons (runChunks {} pre).1 c rest hterm]
    unfold handleStreaming
    simp only []
    rw [hr]

/-- Witness for `streaming_close_idempotent`: the C2 scenario stream is
finish-terminated and closes block 0 exactly once, and moving the finish
chunk before another fragment makes the trailing fragment irrelevant. -/
theorem streaming_close_idempotent_witness :
    countStop 0 (handleStreaming [c2chunk1, c2chunk2, c2chunk3] "m") ≤ 1
    ∧ handleStreaming ([c2chunk1] ++ c2chunk3 :: [c2chunk2]) "m"
        = handleStreaming ([c2chunk1] ++ [c2chunk3]) "m" :=
  ⟨(streaming_close_idempotent [c2chunk1, c2chunk2, c2chunk3] [c2chunk1]
      c2chunk3 [c2chunk2] "m").1 (by decide) 0,
   (streaming_close_idempotent [c2chunk1, c2chunk2, c2chunk3] [c2chunk1]
      c2chunk3 [c2chunk2] "m").2 (by decide) (by decide)⟩
